import Mathlib

/-!
Shallow embedding of the geometry-description builder in ezgeom.py.

Coordinates are exact rationals (Python compares point tuples with exact
structural equality).  The external netgen sink (SplineGeometry) is modelled
by the Geom structure: AppendPoint returns the next identifier (identifiers
are assigned in call order) and appends the point, Append appends an edge
entry.  Python exceptions (ValueError from list.index, IndexError from list
subscripting) are modelled by Option: a raising run returns none.
-/

set_option autoImplicit false

namespace Ezgeom

/-- A 2-D point; equality is exact structural equality of the coordinate
pair, exactly as Python compares tuples of numbers. -/
abbrev Point := ℚ × ℚ

/-- A directed segment: an ordered pair of points. -/
abbrev Seg := Point × Point

/-- The outer-domain argument of a rectangle.  The Python code accepts either
a number or a list; no arity check is performed anywhere, so the list payload
may have any length. -/
inductive Dout where
  | scalar (d : ℤ)
  | list (l : List ℤ)
deriving DecidableEq

/-- Line 114 of ezgeom.py: dout = self.dout[i] if type(self.dout) == list
else self.dout.  Indexing a too-short list raises IndexError, modelled by
none. -/
def doutAt (d : Dout) (i : ℕ) : Option ℤ :=
  match d with
  | Dout.scalar x => some x
  | Dout.list l => l[i]?

/-- The first component of a geom.Append call: either a line between two
point identifiers or a spline3 with three control-point identifiers. -/
inductive CurveSpec where
  | line (p1 p2 : ℕ)
  | spline3 (p1 pm p2 : ℕ)
deriving DecidableEq

/-- One registered edge of the geometry description: the curve together with
the bc, leftdomain and rightdomain keyword arguments of geom.Append. -/
structure SegEntry where
  spec : CurveSpec
  bc : ℤ
  leftdomain : ℤ
  rightdomain : ℤ
deriving DecidableEq

/-- The accumulating netgen SplineGeometry: the ordered list of registered
points (a point's identifier is its position) and the ordered list of
registered edges. -/
structure Geom where
  points : List Point
  segments : List SegEntry
deriving DecidableEq

/-- A fresh SplineGeometry, as built in EzGeom.__init__. -/
def Geom.empty : Geom := { points := [], segments := [] }

/-- geom.AppendPoint(*pt): registers a new point and returns its fresh
identifier; identifiers are assigned in call order. -/
def Geom.AppendPoint (g : Geom) (p : Point) : ℕ × Geom :=
  (g.points.length, { g with points := g.points ++ [p] })

/-- Append one finished edge entry to the description. -/
def Geom.AppendEntry (g : Geom) (e : SegEntry) : Geom :=
  { g with segments := g.segments ++ [e] }

/-- geom.Append([...], bc=..., leftdomain=..., rightdomain=...). -/
def Geom.Append (g : Geom) (c : CurveSpec) (bc leftdomain rightdomain : ℤ) : Geom :=
  g.AppendEntry { spec := c, bc := bc, leftdomain := leftdomain, rightdomain := rightdomain }

/-- The rectangle class: 4 corner points, 4 directed edges, the list of
netgen identifiers recorded for the corners (empty until registration), and
the boundary/domain tags. -/
structure Rectangle where
  pts : List Point
  segs : List Seg
  nums : List ℕ
  bnd : ℤ
  din : ℤ
  dout : Dout
deriving DecidableEq

/-- rectangle.__init__: pts = [blpt, (trX,blY), trpt, (blX,trY)] and
segs = [(pts[i], pts[(i+1)%4]) for i in range(len(pts))].  No validation of
dout is performed. -/
def mkRectangle (blpt trpt : Point) (bnd din : ℤ) (dout : Dout) : Rectangle :=
  let pts : List Point := [blpt, (trpt.1, blpt.2), trpt, (blpt.1, trpt.2)]
  { pts := pts
    segs := (List.range pts.length).map
      (fun i => (pts.getD i (0, 0), pts.getD ((i + 1) % 4) (0, 0)))
    nums := []
    bnd := bnd
    din := din
    dout := dout }

/-- rectangle.has_pt: pt in self.pts. -/
def Rectangle.has_pt (r : Rectangle) (pt : Point) : Bool :=
  r.pts.any (fun x => decide (x = pt))

/-- rectangle.has_seg: scan self.segs for a member whose exact reversal
equals the given segment (only the reversed direction is checked). -/
def Rectangle.has_seg (r : Rectangle) (seg : Seg) : Bool :=
  r.segs.any (fun s => decide ((s.2, s.1) = seg))

/-- Python list.index: the first position holding the value, or a ValueError
(modelled by none) when the value is absent. -/
def listIndex {α : Type} [DecidableEq α] : List α → α → Option ℕ
  | [], _ => none
  | x :: rest, a => if x = a then some 0 else (listIndex rest a).map (fun n => n + 1)

/-- rectangle.get_num: idx = self.pts.index(pt); return self.nums[idx].
Either step may raise in Python; both failures are modelled by none. -/
def Rectangle.get_num (r : Rectangle) (pt : Point) : Option ℕ :=
  match listIndex r.pts pt with
  | some idx => r.nums[idx]?
  | none => none

/-- The loop body of rectangle.add_points: for each own point scan the prior
rectangles in order; the first one containing the point supplies the
recorded identifier via get_num, otherwise the point is appended fresh to
the geometry.  The identifier is appended to the accumulating nums list. -/
def addPointsLoop (others : List Rectangle) :
    List Point → List ℕ → Geom → Option (List ℕ × Geom)
  | [], nums, g => some (nums, g)
  | pt :: rest, nums, g =>
    match others.find? (fun rect => rect.has_pt pt) with
    | some rect =>
      match rect.get_num pt with
      | some n => addPointsLoop others rest (nums ++ [n]) g
      | none => none
    | none =>
      match g.AppendPoint pt with
      | (n, g1) => addPointsLoop others rest (nums ++ [n]) g1

/-- rectangle.add_points(others, geom): run the loop over self.pts; the
final nums list is stored on the rectangle. -/
def Rectangle.add_points (r : Rectangle) (others : List Rectangle) (g : Geom) :
    Option (Rectangle × Geom) :=
  (addPointsLoop others r.pts r.nums g).map fun ng => ({ r with nums := ng.1 }, ng.2)

/-- The duplicate test of the add_segs loop for edge index i: some prior
rectangle's edge list holds the exact reversal of the edge. -/
def suppressedB (r : Rectangle) (others : List Rectangle) (i : ℕ) : Bool :=
  others.any (fun rect => rect.has_seg (r.segs.getD i ((0, 0), (0, 0))))

/-- The entry the add_segs loop body builds for edge index i when it is not
skipped: num1 = nums[pts.index(p1)], num2 = nums[pts.index(p2)], the
per-index (or scalar) outer domain, appended as a line with bc=self.bnd,
leftdomain=self.din, rightdomain=dout.  Any failing lookup (Python
ValueError/IndexError) yields none. -/
def segEntryAt (r : Rectangle) (i : ℕ) : Option SegEntry :=
  let seg := r.segs.getD i ((0, 0), (0, 0))
  (listIndex r.pts seg.1).bind fun i1 =>
  (listIndex r.pts seg.2).bind fun i2 =>
  (r.nums[i1]?).bind fun num1 =>
  (r.nums[i2]?).bind fun num2 =>
  (doutAt r.dout i).map fun dv =>
    { spec := CurveSpec.line num1 num2, bc := r.bnd, leftdomain := r.din, rightdomain := dv }

/-- The loop body of rectangle.add_segs over the indices of self.segs: an
edge whose exact reversal occurs in a prior rectangle's edge list is
skipped; otherwise the line entry built from the recorded endpoint
identifiers is appended. -/
def addSegsLoop (r : Rectangle) (others : List Rectangle) :
    List ℕ → Geom → Option Geom
  | [], g => some g
  | i :: rest, g =>
    if suppressedB r others i then
      addSegsLoop r others rest g
    else
      match segEntryAt r i with
      | some e => addSegsLoop r others rest (g.AppendEntry e)
      | none => none

/-- rectangle.add_segs(others, geom). -/
def Rectangle.add_segs (r : Rectangle) (others : List Rectangle) (g : Geom) :
    Option Geom :=
  addSegsLoop r others (List.range r.segs.length) g

/-- rectangle.make_geometry(others, geom): add_points then add_segs (the
latter sees the nums recorded by the former); a raise in either propagates. -/
def Rectangle.make_geometry (r : Rectangle) (others : List Rectangle) (g : Geom) :
    Option (Rectangle × Geom) :=
  (r.add_points others g).bind fun rg =>
    (rg.1.add_segs others rg.2).map fun g2 => (rg.1, g2)

/-- The circle class: 8 stored points, recorded identifiers, and tags (the
outer domain of a circle is passed straight to Append, scalar). -/
structure Circle where
  pts : List Point
  nums : List ℕ
  bnd : ℤ
  din : ℤ
  dout : ℤ
deriving DecidableEq

/-- circle.__init__: the 8 points, east first, proceeding counter-clockwise;
the diagonal entries are the corners of the circle's bounding square. -/
def mkCircle (cenpt : Point) (r : ℚ) (bnd din dout : ℤ) : Circle :=
  { pts := [(cenpt.1 + r, cenpt.2), (cenpt.1 + r, cenpt.2 + r), (cenpt.1, cenpt.2 + r),
            (cenpt.1 - r, cenpt.2 + r), (cenpt.1 - r, cenpt.2), (cenpt.1 - r, cenpt.2 - r),
            (cenpt.1, cenpt.2 - r), (cenpt.1 + r, cenpt.2 - r)]
    nums := []
    bnd := bnd
    din := din
    dout := dout }

/-- The list comprehension self.nums = [geom.AppendPoint(*p) for p in
self.pts]: every point is appended unconditionally. -/
def appendPointsLoop : List Point → List ℕ → Geom → List ℕ × Geom
  | [], nums, g => (nums, g)
  | p :: rest, nums, g =>
    match g.AppendPoint p with
    | (n, g1) => appendPointsLoop rest (nums ++ [n]) g1

/-- The spline3 control triple of quarter-arc i: identifiers nums[2i],
nums[2i+1], nums[(2i+2) % 8]; a failing subscript is none. -/
def circleTriple (nums : List ℕ) (i : ℕ) : Option CurveSpec :=
  (nums[2 * i]?).bind fun a =>
  (nums[2 * i + 1]?).bind fun b =>
  (nums[(2 * i + 2) % 8]?).map fun d => CurveSpec.spline3 a b d

/-- The loop of circle.make_geometry over i in range(4): append the spline3
entry with control identifiers nums[2i], nums[2i+1], nums[(2i+2) % 8]. -/
def circleSegsLoop (c : Circle) (nums : List ℕ) : List ℕ → Geom → Option Geom
  | [], g => some g
  | i :: rest, g =>
    match circleTriple nums i with
    | some cs => circleSegsLoop c nums rest (g.Append cs c.bnd c.din c.dout)
    | none => none

/-- circle.make_geometry(geom): register the 8 points fresh (no dedup
against anything), then the 4 quarter-arc spline entries. -/
def Circle.make_geometry (c : Circle) (g : Geom) : Option (Circle × Geom) :=
  match appendPointsLoop c.pts [] g with
  | (nums, g1) =>
    (circleSegsLoop c nums (List.range 4) g1).map fun g2 => ({ c with nums := nums }, g2)

/-- The EzGeom builder: the ordered lists of shapes and the accumulating
geometry description. -/
structure EzGeom where
  rectangles : List Rectangle
  circles : List Circle
  geom : Geom
deriving DecidableEq

/-- EzGeom.__init__. -/
def EzGeom.new : EzGeom := { rectangles := [], circles := [], geom := Geom.empty }

/-- EzGeom.add_rect: append a freshly constructed rectangle; chainable. -/
def EzGeom.add_rect (e : EzGeom) (blpt trpt : Point) (bnd din : ℤ) (dout : Dout) : EzGeom :=
  { e with rectangles := e.rectangles ++ [mkRectangle blpt trpt bnd din dout] }

/-- EzGeom.add_circle: append a freshly constructed circle; chainable. -/
def EzGeom.add_circle (e : EzGeom) (cenpt : Point) (r : ℚ) (bnd din dout : ℤ) : EzGeom :=
  { e with circles := e.circles ++ [mkCircle cenpt r bnd din dout] }

/-- The loop for i in range(len(self.rectangles)):
self.rectangles[i].make_geometry(self.rectangles[:i], self.geom).  The
accumulating done list is exactly the already-processed prefix (Python
mutates the rectangles in place, so the prefix carries the recorded nums). -/
def rectLoop : List Rectangle → List Rectangle → Geom → Option (List Rectangle × Geom)
  | [], done, g => some (done, g)
  | r :: rest, done, g =>
    (r.make_geometry done g).bind fun rg => rectLoop rest (done ++ [rg.1]) rg.2

/-- The loop for circ in self.circles: circ.make_geometry(self.geom). -/
def circleLoop : List Circle → List Circle → Geom → Option (List Circle × Geom)
  | [], done, g => some (done, g)
  | c :: rest, done, g =>
    (c.make_geometry g).bind fun cg => circleLoop rest (done ++ [cg.1]) cg.2

/-- EzGeom.make_geometry: all rectangles in insertion order, each consulting
only the prior ones, then all circles unconditionally. -/
def EzGeom.make_geometry (e : EzGeom) : Option EzGeom :=
  (rectLoop e.rectangles [] e.geom).bind fun rg =>
    (circleLoop e.circles [] rg.2).map fun cg =>
      { rectangles := rg.1, circles := cg.1, geom := cg.2 }

/-! Observation helpers used to state the claims. -/

/-- How often a coordinate point occurs among the registered points. -/
def countPt (g : Geom) (p : Point) : ℕ :=
  (g.points.filter (fun x => decide (x = p))).length

/-- Resolve an entry's endpoint identifiers back to coordinate points
through the description's point list (the spline3 middle control point is
not an endpoint). -/
def entryEndpoints (g : Geom) (e : SegEntry) : Option (Point × Point) :=
  match e.spec with
  | CurveSpec.line a b =>
    match g.points[a]?, g.points[b]? with
    | some pa, some pb => some (pa, pb)
    | _, _ => none
  | CurveSpec.spline3 a _ b =>
    match g.points[a]?, g.points[b]? with
    | some pa, some pb => some (pa, pb)
    | _, _ => none

/-- How many registered edges join the two given points, in either
direction. -/
def lineCount (g : Geom) (p q : Point) : ℕ :=
  (g.segments.filter (fun e =>
    decide (entryEndpoints g e = some (p, q)) || decide (entryEndpoints g e = some (q, p)))).length

/-- Two directed segments describe the same undirected edge: equal exactly
or exactly reversed. -/
def sameUndir (s t : Seg) : Prop := s = t ∨ s = (t.2, t.1)

/-- The shapes the docstring of add_rect describes for the outer-domain
argument: a single number, or a list of four elements. -/
def Dout.ok : Dout → Prop
  | Dout.scalar _ => True
  | Dout.list l => l.length = 4

/-- A prior rectangle is coherent with the description when every point it
owns has a recorded identifier that resolves, through the description's
point list, back to that point. -/
def Coherent (g : Geom) (others : List Rectangle) : Prop :=
  ∀ rect ∈ others, ∀ pt : Point, rect.has_pt pt = true →
    ∃ n : ℕ, rect.get_num pt = some n ∧ g.points[n]? = some pt

/-- Edge i of a rectangle (the segs list entry, with the dummy default the
loops use). -/
def rectSeg (r : Rectangle) (i : ℕ) : Seg := r.segs.getD i ((0, 0), (0, 0))

/-- The two rectangles share exactly one undirected edge, and the sharing is
by exact reversal: r2's edge j0 is the exact reverse of r1's edge i0, and no
other pair of their edges coincides in either direction. -/
def SharedOneEdgeRev (r1 r2 : Rectangle) (i0 j0 : Fin 4) : Prop :=
  rectSeg r2 j0 = ((rectSeg r1 i0).2, (rectSeg r1 i0).1) ∧
  ∀ i j : Fin 4, sameUndir (rectSeg r1 i) (rectSeg r2 j) → i = i0 ∧ j = j0

/-! General lemmas about the embedded operations. -/

theorem listIndex_eq_none {α : Type} [DecidableEq α] (l : List α) (a : α) :
    listIndex l a = none ↔ a ∉ l := by
  induction l with
  | nil => simp [listIndex]
  | cons x rest ih =>
    by_cases hx : x = a
    · subst hx
      simp [listIndex]
    · simp [listIndex, hx, ih, Ne.symm hx]

theorem listIndex_lt_length {α : Type} [DecidableEq α] {l : List α} {a : α} {k : ℕ}
    (h : listIndex l a = some k) : k < l.length := by
  induction l generalizing k with
  | nil => simp [listIndex] at h
  | cons x rest ih =>
    by_cases hx : x = a
    · rw [listIndex, if_pos hx] at h
      obtain rfl : (0 : ℕ) = k := Option.some.inj h
      simp
    · simp [listIndex, hx] at h
      obtain ⟨k', hk', rfl⟩ := h
      have := ih hk'
      simp
      omega

theorem listIndex_getElem {α : Type} [DecidableEq α] {l : List α} {a : α} {k : ℕ}
    (h : listIndex l a = some k) : l[k]? = some a := by
  induction l generalizing k with
  | nil => simp [listIndex] at h
  | cons x rest ih =>
    by_cases hx : x = a
    · simp [listIndex, hx] at h
      subst hx
      simp [← h]
    · simp [listIndex, hx] at h
      obtain ⟨k', hk', rfl⟩ := h
      simpa using ih hk'

theorem listIndex_of_nodup {α : Type} [DecidableEq α] {l : List α} (hnd : l.Nodup)
    {k : ℕ} (hk : k < l.length) : listIndex l (l.getD k l[k]) = some k := by
  induction l generalizing k with
  | nil => simp at hk
  | cons x rest ih =>
    rcases List.nodup_cons.mp hnd with ⟨hx, hrest⟩
    match k with
    | 0 => simp [listIndex]
    | k + 1 =>
      have hk' : k < rest.length := by simpa using hk
      have hmem : rest.getD k (rest[k]) ∈ rest := by
        rw [List.getD_eq_getElem?_getD, List.getElem?_eq_getElem hk']
        exact List.getElem_mem hk'
      have hne : x ≠ rest.getD k (rest[k]) := by
        intro he
        exact hx (he ▸ hmem)
      have hrec := ih hrest hk'
      simp only [List.getD_cons_succ]
      rw [listIndex]
      simp only [List.getElem_cons_succ]
      rw [if_neg ?_, hrec]
      · rfl
      · simpa using hne

theorem get_num_eq_none_iff {r : Rectangle} (h : r.pts.length ≤ r.nums.length)
    (pt : Point) : r.get_num pt = none ↔ pt ∉ r.pts := by
  rw [Rectangle.get_num]
  cases hidx : listIndex r.pts pt with
  | none =>
    simp [(listIndex_eq_none _ _).mp hidx]
  | some k =>
    have hk : k < r.nums.length := lt_of_lt_of_le (listIndex_lt_length hidx) h
    have hmem : pt ∈ r.pts := List.getElem?_mem (listIndex_getElem hidx)
    simp [List.getElem?_eq_getElem hk, hmem]

theorem addPointsLoop_nil {others : List Rectangle} {nums : List ℕ} {g : Geom} :
    addPointsLoop others [] nums g = some (nums, g) := rfl

theorem addPointsLoop_cons_matched {others : List Rectangle} {pt : Point}
    {rest : List Point} {nums : List ℕ} {g : Geom} {rect : Rectangle} {n : ℕ}
    (hf : others.find? (fun r0 => r0.has_pt pt) = some rect)
    (hg : rect.get_num pt = some n) :
    addPointsLoop others (pt :: rest) nums g = addPointsLoop others rest (nums ++ [n]) g := by
  rw [addPointsLoop, hf]
  simp only [hg]

theorem addPointsLoop_cons_matched_fail {others : List Rectangle} {pt : Point}
    {rest : List Point} {nums : List ℕ} {g : Geom} {rect : Rectangle}
    (hf : others.find? (fun r0 => r0.has_pt pt) = some rect)
    (hg : rect.get_num pt = none) :
    addPointsLoop others (pt :: rest) nums g = none := by
  rw [addPointsLoop, hf]
  simp only [hg]

theorem addPointsLoop_cons_fresh {others : List Rectangle} {pt : Point}
    {rest : List Point} {nums : List ℕ} {g : Geom}
    (hf : others.find? (fun r0 => r0.has_pt pt) = none) :
    addPointsLoop others (pt :: rest) nums g =
      addPointsLoop others rest (nums ++ [g.points.length])
        { g with points := g.points ++ [pt] } := by
  rw [addPointsLoop, hf]
  rfl

theorem addPointsLoop_nums_ext {others : List Rectangle} {pts : List Point}
    {nums ns : List ℕ} {g g' : Geom}
    (h : addPointsLoop others pts nums g = some (ns, g')) :
    ∃ suffix : List ℕ, ns = nums ++ suffix ∧ suffix.length = pts.length := by
  induction pts generalizing nums g with
  | nil =>
    rw [addPointsLoop_nil] at h
    obtain ⟨rfl, rfl⟩ : nums = ns ∧ g = g' := by simpa using h
    exact ⟨[], by simp⟩
  | cons pt rest ih =>
    cases hf : others.find? (fun r0 => r0.has_pt pt) with
    | some rect =>
      cases hg : rect.get_num pt with
      | none => rw [addPointsLoop_cons_matched_fail hf hg] at h; exact absurd h (by simp)
      | some n =>
        rw [addPointsLoop_cons_matched hf hg] at h
        obtain ⟨s, rfl, hlen⟩ := ih h
        exact ⟨n :: s, by simp, by simp [hlen]⟩
    | none =>
      rw [addPointsLoop_cons_fresh hf] at h
      obtain ⟨s, rfl, hlen⟩ := ih h
      exact ⟨g.points.length :: s, by simp, by simp [hlen]⟩

theorem addPointsLoop_geom {others : List Rectangle} {pts : List Point}
    {nums ns : List ℕ} {g g' : Geom}
    (h : addPointsLoop others pts nums g = some (ns, g')) :
    g'.points = g.points ++
      pts.filter (fun pt => (others.find? (fun r0 => r0.has_pt pt)).isNone) ∧
    g'.segments = g.segments := by
  induction pts generalizing nums g with
  | nil =>
    rw [addPointsLoop_nil] at h
    obtain ⟨rfl, rfl⟩ : nums = ns ∧ g = g' := by simpa using h
    simp
  | cons pt rest ih =>
    cases hf : others.find? (fun r0 => r0.has_pt pt) with
    | some rect =>
      cases hg : rect.get_num pt with
      | none => rw [addPointsLoop_cons_matched_fail hf hg] at h; exact absurd h (by simp)
      | some n =>
        rw [addPointsLoop_cons_matched hf hg] at h
        obtain ⟨h1, h2⟩ := ih h
        exact ⟨by rw [h1]; simp [List.filter_cons, hf], h2⟩
    | none =>
      rw [addPointsLoop_cons_fresh hf] at h
      obtain ⟨h1, h2⟩ := ih h
      exact ⟨by rw [h1]; simp [List.filter_cons, hf], h2⟩

/-- Weaker precondition than Coherent: every point owned by a prior
rectangle has a recorded identifier. -/
def OwnsIds (others : List Rectangle) : Prop :=
  ∀ rect ∈ others, ∀ pt : Point, rect.has_pt pt = true → (rect.get_num pt).isSome

theorem Coherent.ownsIds {g : Geom} {others : List Rectangle}
    (h : Coherent g others) : OwnsIds others := by
  intro rect hr pt hpt
  obtain ⟨n, hn, -⟩ := h rect hr pt hpt
  simp [hn]

theorem addPointsLoop_isSome {others : List Rectangle} (hown : OwnsIds others)
    (pts : List Point) (nums : List ℕ) (g : Geom) :
    (addPointsLoop others pts nums g).isSome := by
  induction pts generalizing nums g with
  | nil => simp [addPointsLoop_nil]
  | cons pt rest ih =>
    cases hf : others.find? (fun r0 => r0.has_pt pt) with
    | some rect =>
      have hmem : rect ∈ others := List.mem_of_find?_eq_some hf
      have hpt : rect.has_pt pt = true := by simpa using List.find?_some hf
      cases hg : rect.get_num pt with
      | none =>
        have := hown rect hmem pt hpt
        simp [hg] at this
      | some n =>
        rw [addPointsLoop_cons_matched hf hg]
        exact ih _ _
    | none =>
      rw [addPointsLoop_cons_fresh hf]
      exact ih _ _

theorem Coherent_mono {g g' : Geom} {others : List Rectangle} (ap : List Point)
    (hext : g'.points = g.points ++ ap) (h : Coherent g others) : Coherent g' others := by
  intro rect hr pt hpt
  obtain ⟨n, hn, hlook⟩ := h rect hr pt hpt
  have hlt : n < g.points.length := by
    by_contra hge
    rw [List.getElem?_eq_none (le_of_not_lt hge)] at hlook
    exact Option.noConfusion hlook
  exact ⟨n, hn, by rw [hext, List.getElem?_append_left hlt]; exact hlook⟩

theorem addPointsLoop_idx_matched {others : List Rectangle} {pts : List Point}
    {nums ns : List ℕ} {g g' : Geom}
    (h : addPointsLoop others pts nums g = some (ns, g'))
    {k : ℕ} (hk : k < pts.length) {rect : Rectangle}
    (hf : others.find? (fun r0 => r0.has_pt (pts.getD k (0, 0))) = some rect) :
    ns[nums.length + k]? = rect.get_num (pts.getD k (0, 0)) := by
  induction pts generalizing nums g k with
  | nil => simp at hk
  | cons pt rest ih =>
    match k with
    | 0 =>
      simp only [List.getD_cons_zero] at hf
      cases hg : rect.get_num pt with
      | none => rw [addPointsLoop_cons_matched_fail hf hg] at h; exact absurd h (by simp)
      | some n =>
        rw [addPointsLoop_cons_matched hf hg] at h
        obtain ⟨s, rfl, -⟩ := addPointsLoop_nums_ext h
        rw [List.getD_cons_zero, hg]
        have hq : nums ++ [n] ++ s = nums ++ ([n] ++ s) := by simp
        rw [hq, Nat.add_zero, List.getElem?_append_right (le_refl _)]
        simp
    | k + 1 =>
      simp only [List.getD_cons_succ] at hf
      have hk' : k < rest.length := by simpa using hk
      cases hf0 : others.find? (fun r0 => r0.has_pt pt) with
      | some rect0 =>
        cases hg : rect0.get_num pt with
        | none => rw [addPointsLoop_cons_matched_fail hf0 hg] at h; exact absurd h (by simp)
        | some n =>
          rw [addPointsLoop_cons_matched hf0 hg] at h
          have hrec := ih h hk' hf
          rw [List.length_append, List.length_singleton] at hrec
          simp only [List.getD_cons_succ]
          rw [← hrec]
          congr 1
          omega
      | none =>
        rw [addPointsLoop_cons_fresh hf0] at h
        have hrec := ih h hk' hf
        rw [List.length_append, List.length_singleton] at hrec
        simp only [List.getD_cons_succ]
        rw [← hrec]
        congr 1
        omega

theorem addPointsLoop_resolve {others : List Rectangle} {pts : List Point}
    {nums ns : List ℕ} {g g' : Geom} (hco : Coherent g others)
    (h : addPointsLoop others pts nums g = some (ns, g')) :
    ∀ k, k < pts.length → ∃ n : ℕ, ns[nums.length + k]? = some n ∧
      g'.points[n]? = some (pts.getD k (0, 0)) := by
  induction pts generalizing nums g with
  | nil => intro k hk; simp at hk
  | cons pt rest ih =>
    intro k hk
    match k with
    | 0 =>
      cases hf : others.find? (fun r0 => r0.has_pt pt) with
      | some rect =>
        have hmem : rect ∈ others := List.mem_of_find?_eq_some hf
        have hpt : rect.has_pt pt = true := by simpa using List.find?_some hf
        obtain ⟨n, hn, hlook⟩ := hco rect hmem pt hpt
        rw [addPointsLoop_cons_matched hf hn] at h
        obtain ⟨s, rfl, -⟩ := addPointsLoop_nums_ext h
        refine ⟨n, ?_, ?_⟩
        · have hq : nums ++ [n] ++ s = nums ++ ([n] ++ s) := by simp
          rw [hq, Nat.add_zero, List.getElem?_append_right (le_refl _)]
          simp
        · obtain ⟨hp, -⟩ := addPointsLoop_geom h
          have hlt : n < g.points.length := by
            by_contra hge
            rw [List.getElem?_eq_none (le_of_not_lt hge)] at hlook
            exact Option.noConfusion hlook
          rw [hp, List.getElem?_append_left hlt]
          simpa using hlook
      | none =>
        rw [addPointsLoop_cons_fresh hf] at h
        obtain ⟨s, rfl, -⟩ := addPointsLoop_nums_ext h
        refine ⟨g.points.length, ?_, ?_⟩
        · have hq : nums ++ [g.points.length] ++ s = nums ++ ([g.points.length] ++ s) := by simp
          rw [hq, Nat.add_zero, List.getElem?_append_right (le_refl _)]
          simp
        · obtain ⟨hp, -⟩ := addPointsLoop_geom h
          simp only at hp
          have hlt : g.points.length < (g.points ++ [pt]).length := by simp
          rw [hp, List.getElem?_append_left hlt]
          simp
    | k + 1 =>
      have hk' : k < rest.length := by simpa using hk
      cases hf : others.find? (fun r0 => r0.has_pt pt) with
      | some rect =>
        have hmem : rect ∈ others := List.mem_of_find?_eq_some hf
        have hpt : rect.has_pt pt = true := by simpa using List.find?_some hf
        obtain ⟨n, hn, hlook⟩ := hco rect hmem pt hpt
        rw [addPointsLoop_cons_matched hf hn] at h
        obtain ⟨m, hm1, hm2⟩ := ih hco h k hk'
        rw [List.length_append, List.length_singleton] at hm1
        refine ⟨m, ?_, by simpa using hm2⟩
        rw [← hm1]
        congr 1
        omega
      | none =>
        rw [addPointsLoop_cons_fresh hf] at h
        have hco1 : Coherent { g with points := g.points ++ [pt] } others :=
          Coherent_mono [pt] rfl hco
        obtain ⟨m, hm1, hm2⟩ := ih hco1 h k hk'
        rw [List.length_append, List.length_singleton] at hm1
        refine ⟨m, ?_, by simpa using hm2⟩
        rw [← hm1]
        congr 1
        omega

theorem addSegsLoop_nil {r : Rectangle} {others : List Rectangle} {g : Geom} :
    addSegsLoop r others [] g = some g := rfl

theorem addSegsLoop_cons_suppressed {r : Rectangle} {others : List Rectangle}
    {i : ℕ} {rest : List ℕ} {g : Geom} (hs : suppressedB r others i = true) :
    addSegsLoop r others (i :: rest) g = addSegsLoop r others rest g := by
  rw [addSegsLoop]
  simp [hs]

theorem addSegsLoop_cons_entry {r : Rectangle} {others : List Rectangle}
    {i : ℕ} {rest : List ℕ} {g : Geom} (hs : suppressedB r others i = false)
    {e : SegEntry} (he : segEntryAt r i = some e) :
    addSegsLoop r others (i :: rest) g = addSegsLoop r others rest (g.AppendEntry e) := by
  rw [addSegsLoop]
  simp [hs, he]

theorem addSegsLoop_cons_fail {r : Rectangle} {others : List Rectangle}
    {i : ℕ} {rest : List ℕ} {g : Geom} (hs : suppressedB r others i = false)
    (he : segEntryAt r i = none) :
    addSegsLoop r others (i :: rest) g = none := by
  rw [addSegsLoop]
  simp [hs, he]

theorem addSegsLoop_segments {r : Rectangle} {others : List Rectangle}
    {is : List ℕ} {g g' : Geom} (h : addSegsLoop r others is g = some g') :
    g'.segments = g.segments ++
      is.filterMap (fun i => if suppressedB r others i then none else segEntryAt r i) ∧
    g'.points = g.points := by
  induction is generalizing g with
  | nil =>
    obtain rfl : g = g' := by simpa [addSegsLoop_nil] using h
    simp
  | cons i rest ih =>
    cases hs : suppressedB r others i with
    | true =>
      rw [addSegsLoop_cons_suppressed hs] at h
      obtain ⟨h1, h2⟩ := ih h
      exact ⟨by rw [h1]; simp [hs], h2⟩
    | false =>
      cases he : segEntryAt r i with
      | none => rw [addSegsLoop_cons_fail hs he] at h; exact absurd h (by simp)
      | some e =>
        rw [addSegsLoop_cons_entry hs he] at h
        obtain ⟨h1, h2⟩ := ih h
        refine ⟨?_, h2⟩
        rw [h1]
        simp [Geom.AppendEntry, hs, he]

theorem addSegsLoop_isSome {r : Rectangle} {others : List Rectangle} {is : List ℕ}
    (hok : ∀ i ∈ is, suppressedB r others i = true ∨ (segEntryAt r i).isSome)
    (g : Geom) : (addSegsLoop r others is g).isSome := by
  induction is generalizing g with
  | nil => simp [addSegsLoop_nil]
  | cons i rest ih =>
    cases hs : suppressedB r others i with
    | true =>
      rw [addSegsLoop_cons_suppressed hs]
      exact ih (fun j hj => hok j (List.mem_cons_of_mem _ hj)) g
    | false =>
      cases he : segEntryAt r i with
      | none =>
        rcases hok i (List.mem_cons_self _ _) with h1 | h1
        · rw [hs] at h1; exact absurd h1 (by simp)
        · rw [he] at h1; exact absurd h1 (by simp)
      | some e =>
        rw [addSegsLoop_cons_entry hs he]
        exact ih (fun j hj => hok j (List.mem_cons_of_mem _ hj)) _

theorem segEntryAt_some {r : Rectangle} {i : ℕ} {e : SegEntry}
    (h : segEntryAt r i = some e) :
    ∃ i1 i2 num1 num2 dv,
      listIndex r.pts (r.segs.getD i ((0, 0), (0, 0))).1 = some i1 ∧
      listIndex r.pts (r.segs.getD i ((0, 0), (0, 0))).2 = some i2 ∧
      r.nums[i1]? = some num1 ∧ r.nums[i2]? = some num2 ∧
      doutAt r.dout i = some dv ∧
      e = { spec := CurveSpec.line num1 num2, bc := r.bnd,
            leftdomain := r.din, rightdomain := dv } := by
  rw [segEntryAt] at h
  simp only [Option.bind_eq_some, Option.map_eq_some'] at h
  obtain ⟨i1, h1, i2, h2, num1, h3, num2, h4, dv, h5, h6⟩ := h
  exact ⟨i1, i2, num1, num2, dv, h1, h2, h3, h4, h5, h6.symm⟩

theorem segEntryAt_isSome {r : Rectangle} {i : ℕ}
    (hlen : r.pts.length ≤ r.nums.length)
    (h1 : (r.segs.getD i ((0, 0), (0, 0))).1 ∈ r.pts)
    (h2 : (r.segs.getD i ((0, 0), (0, 0))).2 ∈ r.pts)
    (hd : (doutAt r.dout i).isSome) : (segEntryAt r i).isSome := by
  rw [segEntryAt]
  cases hi1 : listIndex r.pts (r.segs.getD i ((0, 0), (0, 0))).1 with
  | none => rw [listIndex_eq_none] at hi1; exact absurd h1 hi1
  | some i1 =>
    cases hi2 : listIndex r.pts (r.segs.getD i ((0, 0), (0, 0))).2 with
    | none => rw [listIndex_eq_none] at hi2; exact absurd h2 hi2
    | some i2 =>
      have hl1 : i1 < r.nums.length := lt_of_lt_of_le (listIndex_lt_length hi1) hlen
      have hl2 : i2 < r.nums.length := lt_of_lt_of_le (listIndex_lt_length hi2) hlen
      cases hd5 : doutAt r.dout i with
      | none => rw [hd5] at hd; exact absurd hd (by simp)
      | some dv =>
        simp [List.getElem?_eq_getElem hl1, List.getElem?_eq_getElem hl2, hd5]

/-! Structure of constructed rectangles. -/

theorem mkRectangle_pts (blpt trpt : Point) (b d : ℤ) (o : Dout) :
    (mkRectangle blpt trpt b d o).pts =
      [blpt, (trpt.1, blpt.2), trpt, (blpt.1, trpt.2)] := rfl

theorem mkRectangle_segs (blpt trpt : Point) (b d : ℤ) (o : Dout) :
    (mkRectangle blpt trpt b d o).segs =
      [(blpt, (trpt.1, blpt.2)), ((trpt.1, blpt.2), trpt),
       (trpt, (blpt.1, trpt.2)), ((blpt.1, trpt.2), blpt)] := by
  simp [mkRectangle, List.range_succ]

theorem mkRectangle_nums (blpt trpt : Point) (b d : ℤ) (o : Dout) :
    (mkRectangle blpt trpt b d o).nums = [] := rfl

theorem mkRectangle_dout (blpt trpt : Point) (b d : ℤ) (o : Dout) :
    (mkRectangle blpt trpt b d o).dout = o := rfl

theorem rectSeg_mk (blpt trpt : Point) (b d : ℤ) (o : Dout) {i : ℕ} (hi : i < 4) :
    rectSeg (mkRectangle blpt trpt b d o) i =
      ((mkRectangle blpt trpt b d o).pts.getD i (0, 0),
       (mkRectangle blpt trpt b d o).pts.getD ((i + 1) % 4) (0, 0)) := by
  rw [rectSeg, mkRectangle_segs, mkRectangle_pts]
  interval_cases i <;> rfl

theorem mkRectangle_pts_length (blpt trpt : Point) (b d : ℤ) (o : Dout) :
    (mkRectangle blpt trpt b d o).pts.length = 4 := rfl

theorem mkRectangle_segs_length (blpt trpt : Point) (b d : ℤ) (o : Dout) :
    (mkRectangle blpt trpt b d o).segs.length = 4 := by
  rw [mkRectangle_segs]
  rfl

theorem rectSeg_fst_mem (blpt trpt : Point) (b d : ℤ) (o : Dout) {i : ℕ} (hi : i < 4) :
    (rectSeg (mkRectangle blpt trpt b d o) i).1 ∈ (mkRectangle blpt trpt b d o).pts := by
  rw [rectSeg, mkRectangle_segs, mkRectangle_pts]
  interval_cases i <;> simp

theorem rectSeg_snd_mem (blpt trpt : Point) (b d : ℤ) (o : Dout) {i : ℕ} (hi : i < 4) :
    (rectSeg (mkRectangle blpt trpt b d o) i).2 ∈ (mkRectangle blpt trpt b d o).pts := by
  rw [rectSeg, mkRectangle_segs, mkRectangle_pts]
  interval_cases i <;> simp

theorem mkRectangle_pts_nodup {x1 y1 x2 y2 : ℚ} (hx : x1 ≠ x2) (hy : y1 ≠ y2)
    (b d : ℤ) (o : Dout) : (mkRectangle (x1, y1) (x2, y2) b d o).pts.Nodup := by
  rw [mkRectangle_pts]
  simp [List.nodup_cons, Prod.ext_iff, hx, hy, Ne.symm hx, Ne.symm hy]

/-! Miscellaneous list facts. -/

theorem find?_first {α : Type} (p : α → Bool) (pre post : List α) (a : α)
    (ha : p a = true) (hpre : ∀ x ∈ pre, p x = false) :
    (pre ++ a :: post).find? p = some a := by
  induction pre with
  | nil => simp [List.find?_cons, ha]
  | cons x xs ih =>
    have hx : p x = false := hpre x (List.mem_cons_self _ _)
    simp only [List.cons_append, List.find?_cons, hx]
    exact ih (fun y hy => hpre y (List.mem_cons_of_mem _ hy))

theorem countP_eq_one_of_nodup {α : Type} [DecidableEq α] {l : List α}
    (h : l.Nodup) {p : α} (hp : p ∈ l) :
    (l.filter (fun x => decide (x = p))).length = 1 := by
  induction l with
  | nil => simp at hp
  | cons x rest ih =>
    rcases List.nodup_cons.mp h with ⟨hx, hrest⟩
    by_cases hxp : x = p
    · subst hxp
      have : rest.filter (fun y => decide (y = x)) = [] := by
        rw [List.filter_eq_nil_iff]
        intro y hy
        simp only [decide_eq_true_eq]
        intro he
        exact hx (he ▸ hy)
      simp [List.filter_cons, this]
    · have hp' : p ∈ rest := by
        rcases List.mem_cons.mp hp with h1 | h1
        · exact absurd h1.symm hxp
        · exact h1
      simp [List.filter_cons, hxp, ih hrest hp']

theorem countP_filter_eq_zero {α : Type} [DecidableEq α] {l : List α}
    {c : α → Bool} {p : α} (hc : c p = false) :
    ((l.filter c).filter (fun x => decide (x = p))).length = 0 := by
  rw [List.length_eq_zero, List.filter_eq_nil_iff]
  intro y hy
  simp only [decide_eq_true_eq]
  intro he
  subst he
  rw [List.mem_filter] at hy
  rw [hy.2] at hc
  exact Bool.noConfusion hc

/-! Outer-domain selection. -/

theorem doutAt_scalar (x : ℤ) (i : ℕ) : doutAt (Dout.scalar x) i = some x := rfl

theorem doutAt_list (l : List ℤ) (i : ℕ) : doutAt (Dout.list l) i = l[i]? := rfl

theorem Dout.ok_at {o : Dout} (ho : o.ok) {i : ℕ} (hi : i < 4) :
    ∃ v : ℤ, doutAt o i = some v := by
  cases o with
  | scalar x => exact ⟨x, rfl⟩
  | list l =>
    have hlen : l.length = 4 := ho
    have : i < l.length := by omega
    exact ⟨l[i], by simp [doutAt, List.getElem?_eq_getElem this]⟩

/-! More segment-loop facts. -/

theorem segEntryAt_build {r : Rectangle} {i i1 i2 num1 num2 : ℕ} {dv : ℤ}
    (h1 : listIndex r.pts (rectSeg r i).1 = some i1)
    (h2 : listIndex r.pts (rectSeg r i).2 = some i2)
    (h3 : r.nums[i1]? = some num1) (h4 : r.nums[i2]? = some num2)
    (h5 : doutAt r.dout i = some dv) :
    segEntryAt r i = some { spec := CurveSpec.line num1 num2, bc := r.bnd,
                            leftdomain := r.din, rightdomain := dv } := by
  rw [segEntryAt, ← rectSeg]
  simp [h1, h2, h3, h4, h5]

theorem addSegsLoop_some_entries {r : Rectangle} {others : List Rectangle}
    {is : List ℕ} {g g' : Geom} (h : addSegsLoop r others is g = some g') :
    ∀ i ∈ is, suppressedB r others i = true ∨ (segEntryAt r i).isSome := by
  induction is generalizing g with
  | nil => simp
  | cons i rest ih =>
    intro j hj
    cases hs : suppressedB r others i with
    | true =>
      rw [addSegsLoop_cons_suppressed hs] at h
      rcases List.mem_cons.mp hj with rfl | hj'
      · exact Or.inl hs
      · exact ih h j hj'
    | false =>
      cases he : segEntryAt r i with
      | none => rw [addSegsLoop_cons_fail hs he] at h; exact absurd h (by simp)
      | some e =>
        rw [addSegsLoop_cons_entry hs he] at h
        rcases List.mem_cons.mp hj with rfl | hj'
        · exact Or.inr (by simp [he])
        · exact ih h j hj'

theorem suppressedB_nil (r : Rectangle) (i : ℕ) : suppressedB r [] i = false := rfl

theorem suppressedB_iff (r : Rectangle) (others : List Rectangle) (i : ℕ) :
    suppressedB r others i = true ↔
      ∃ s ∈ others, ((rectSeg r i).2, (rectSeg r i).1) ∈ s.segs := by
  rw [suppressedB, ← rectSeg]
  simp only [List.any_eq_true, Rectangle.has_seg, decide_eq_true_eq]
  constructor
  · rintro ⟨rect, hr, sg, hsg, he⟩
    refine ⟨rect, hr, ?_⟩
    have hsg2 : sg = ((rectSeg r i).2, (rectSeg r i).1) := by
      have ha : sg.2 = (rectSeg r i).1 := congrArg Prod.fst he
      have hb : sg.1 = (rectSeg r i).2 := congrArg Prod.snd he
      rw [← ha, ← hb]
    rw [← hsg2]
    exact hsg
  · rintro ⟨rect, hr, hmem⟩
    exact ⟨rect, hr, ((rectSeg r i).2, (rectSeg r i).1), hmem, rfl⟩

theorem addPointsLoop_idx_fresh {others : List Rectangle} {pts : List Point}
    {nums ns : List ℕ} {g g' : Geom}
    (h : addPointsLoop others pts nums g = some (ns, g'))
    {k : ℕ} (hk : k < pts.length)
    (hf : others.find? (fun r0 => r0.has_pt (pts.getD k (0, 0))) = none) :
    ∃ n : ℕ, ns[nums.length + k]? = some n ∧ g.points.length ≤ n ∧
      g'.points[n]? = some (pts.getD k (0, 0)) := by
  induction pts generalizing nums g k with
  | nil => simp at hk
  | cons pt rest ih =>
    match k with
    | 0 =>
      simp only [List.getD_cons_zero] at hf ⊢
      rw [addPointsLoop_cons_fresh hf] at h
      obtain ⟨s, rfl, -⟩ := addPointsLoop_nums_ext h
      refine ⟨g.points.length, ?_, le_refl _, ?_⟩
      · have hq : nums ++ [g.points.length] ++ s = nums ++ ([g.points.length] ++ s) := by simp
        rw [hq, Nat.add_zero, List.getElem?_append_right (le_refl _)]
        simp
      · obtain ⟨hp, -⟩ := addPointsLoop_geom h
        simp only at hp
        have hlt : g.points.length < (g.points ++ [pt]).length := by simp
        rw [hp, List.getElem?_append_left hlt]
        simp
    | k + 1 =>
      simp only [List.getD_cons_succ] at hf ⊢
      have hk' : k < rest.length := by simpa using hk
      cases hf0 : others.find? (fun r0 => r0.has_pt pt) with
      | some rect =>
        cases hg : rect.get_num pt with
        | none => rw [addPointsLoop_cons_matched_fail hf0 hg] at h; exact absurd h (by simp)
        | some n =>
          rw [addPointsLoop_cons_matched hf0 hg] at h
          obtain ⟨m, hm1, hm2, hm3⟩ := ih h hk' hf
          rw [List.length_append, List.length_singleton] at hm1
          refine ⟨m, ?_, hm2, hm3⟩
          rw [← hm1]
          congr 1
          omega
      | none =>
        rw [addPointsLoop_cons_fresh hf0] at h
        obtain ⟨m, hm1, hm2, hm3⟩ := ih h hk' hf
        rw [List.length_append, List.length_singleton] at hm1
        simp only [List.length_append, List.length_singleton] at hm2
        refine ⟨m, ?_, by omega, hm3⟩
        rw [← hm1]
        congr 1
        omega

/-! Assembly lemmas for the registration pipeline. -/

theorem add_points_eq {r : Rectangle} {others : List Rectangle} {g : Geom}
    {nums : List ℕ} {g1 : Geom}
    (h : addPointsLoop others r.pts r.nums g = some (nums, g1)) :
    r.add_points others g = some ({ r with nums := nums }, g1) := by
  rw [Rectangle.add_points, h]
  rfl

theorem add_points_some {r : Rectangle} {others : List Rectangle} {g : Geom}
    {r' : Rectangle} {g' : Geom} (h : r.add_points others g = some (r', g')) :
    ∃ nums, addPointsLoop others r.pts r.nums g = some (nums, g') ∧
      r' = { r with nums := nums } := by
  rw [Rectangle.add_points] at h
  simp only [Option.map_eq_some'] at h
  obtain ⟨⟨nums, g1⟩, hl, he⟩ := h
  have h1 : ({ r with nums := nums } : Rectangle) = r' := congrArg Prod.fst he
  have h2 : g1 = g' := congrArg Prod.snd he
  exact ⟨nums, by rw [← h2]; exact hl, h1.symm⟩

theorem add_points_isSome {r : Rectangle} {others : List Rectangle}
    (hown : OwnsIds others) (g : Geom) : (r.add_points others g).isSome := by
  rw [Rectangle.add_points]
  have := addPointsLoop_isSome hown r.pts r.nums g
  cases hl : addPointsLoop others r.pts r.nums g with
  | none => rw [hl] at this; exact absurd this (by simp)
  | some v => simp

theorem rect_make_geometry_eq {r r1 : Rectangle} {others : List Rectangle}
    {g g1 g2 : Geom} (hp : r.add_points others g = some (r1, g1))
    (hs : r1.add_segs others g1 = some g2) :
    r.make_geometry others g = some (r1, g2) := by
  rw [Rectangle.make_geometry, hp]
  simp [hs]

theorem rect_make_geometry_none {r r1 : Rectangle} {others : List Rectangle}
    {g g1 : Geom} (hp : r.add_points others g = some (r1, g1))
    (hs : r1.add_segs others g1 = none) :
    r.make_geometry others g = none := by
  rw [Rectangle.make_geometry, hp]
  simp [hs]

theorem rect_make_geometry_some {r : Rectangle} {others : List Rectangle}
    {g : Geom} {r' : Rectangle} {g' : Geom}
    (h : r.make_geometry others g = some (r', g')) :
    ∃ g1, r.add_points others g = some (r', g1) ∧ r'.add_segs others g1 = some g' := by
  rw [Rectangle.make_geometry] at h
  simp only [Option.bind_eq_some, Option.map_eq_some'] at h
  obtain ⟨⟨r1, g1⟩, hp, g2, hs, he⟩ := h
  have h1 : r1 = r' := congrArg Prod.fst he
  have h2 : g2 = g' := congrArg Prod.snd he
  subst h1
  subst h2
  exact ⟨g1, hp, hs⟩

theorem rect_make_geometry_ext {r : Rectangle} {others : List Rectangle}
    {g : Geom} {r' : Rectangle} {g' : Geom}
    (h : r.make_geometry others g = some (r', g')) :
    r'.pts = r.pts ∧ r'.segs = r.segs ∧ (∃ ap, g'.points = g.points ++ ap) ∧
    ∃ es, g'.segments = g.segments ++ es := by
  obtain ⟨g1, hp, hs⟩ := rect_make_geometry_some h
  obtain ⟨nums, hloop, hr'⟩ := add_points_some hp
  obtain ⟨hpts1, hsegs1⟩ := addPointsLoop_geom hloop
  rw [Rectangle.add_segs] at hs
  obtain ⟨hsegs2, hpts2⟩ := addSegsLoop_segments hs
  refine ⟨by rw [hr'], by rw [hr'], ⟨_, by rw [hpts2, hpts1]⟩,
    ⟨_, by rw [hsegs2, hsegs1]⟩⟩

theorem rectLoop_nil {done : List Rectangle} {g : Geom} :
    rectLoop [] done g = some (done, g) := rfl

theorem rectLoop_cons_some {r r1 : Rectangle} {rest done : List Rectangle}
    {g g1 : Geom} (h : r.make_geometry done g = some (r1, g1)) :
    rectLoop (r :: rest) done g = rectLoop rest (done ++ [r1]) g1 := by
  rw [rectLoop, h]
  rfl

theorem rectLoop_cons_some_inv {r : Rectangle} {rest done : List Rectangle}
    {g : Geom} {rects : List Rectangle} {g' : Geom}
    (h : rectLoop (r :: rest) done g = some (rects, g')) :
    ∃ r1 g1, r.make_geometry done g = some (r1, g1) ∧
      rectLoop rest (done ++ [r1]) g1 = some (rects, g') := by
  rw [rectLoop] at h
  simp only [Option.bind_eq_some] at h
  obtain ⟨⟨r1, g1⟩, hm, hrest⟩ := h
  exact ⟨r1, g1, hm, hrest⟩

theorem rectLoop_ext {rs done rects : List Rectangle} {g g' : Geom}
    (h : rectLoop rs done g = some (rects, g')) :
    (∃ ap, g'.points = g.points ++ ap) ∧ (∃ es, g'.segments = g.segments ++ es) ∧
    rects.map Rectangle.pts = done.map Rectangle.pts ++ rs.map Rectangle.pts ∧
    rects.map Rectangle.segs = done.map Rectangle.segs ++ rs.map Rectangle.segs := by
  induction rs generalizing done g with
  | nil =>
    obtain ⟨rfl, rfl⟩ : done = rects ∧ g = g' := by simpa [rectLoop_nil] using h
    exact ⟨⟨[], by simp⟩, ⟨[], by simp⟩, by simp, by simp⟩
  | cons r rest ih =>
    obtain ⟨r1, g1, hm, hrest⟩ := rectLoop_cons_some_inv h
    obtain ⟨⟨ap2, hap2⟩, ⟨es2, hes2⟩, hmap, hmap2⟩ := ih hrest
    obtain ⟨hpts, hsegs, ⟨ap1, hap1⟩, ⟨es1, hes1⟩⟩ := rect_make_geometry_ext hm
    refine ⟨⟨ap1 ++ ap2, by rw [hap2, hap1, List.append_assoc]⟩,
            ⟨es1 ++ es2, by rw [hes2, hes1, List.append_assoc]⟩, ?_, ?_⟩
    · rw [hmap]
      simp [hpts]
    · rw [hmap2]
      simp [hsegs]

theorem circleTriple_ext {nums : List ℕ} {i : ℕ} {cs : CurveSpec}
    (h : circleTriple nums i = some cs) :
    ∃ a b d, nums[2 * i]? = some a ∧ nums[2 * i + 1]? = some b ∧
      nums[(2 * i + 2) % 8]? = some d ∧ cs = CurveSpec.spline3 a b d := by
  rw [circleTriple] at h
  simp only [Option.bind_eq_some, Option.map_eq_some'] at h
  obtain ⟨a, h1, b, h2, d, h3, h4⟩ := h
  exact ⟨a, b, d, h1, h2, h3, h4.symm⟩

theorem circleSegsLoop_nil {c : Circle} {nums : List ℕ} {g : Geom} :
    circleSegsLoop c nums [] g = some g := rfl

theorem circleSegsLoop_cons_some {c : Circle} {nums : List ℕ} {i : ℕ}
    {rest : List ℕ} {g : Geom} {cs : CurveSpec} (h : circleTriple nums i = some cs) :
    circleSegsLoop c nums (i :: rest) g =
      circleSegsLoop c nums rest (g.Append cs c.bnd c.din c.dout) := by
  rw [circleSegsLoop, h]

theorem circleSegsLoop_ext {c : Circle} {nums : List ℕ} {is : List ℕ} {g g' : Geom}
    (h : circleSegsLoop c nums is g = some g') :
    g'.points = g.points ∧
    ∃ es, g'.segments = g.segments ++ es ∧ es.length = is.length := by
  induction is generalizing g with
  | nil =>
    obtain rfl : g = g' := by simpa [circleSegsLoop_nil] using h
    exact ⟨rfl, [], by simp, rfl⟩
  | cons i rest ih =>
    cases ht : circleTriple nums i with
    | none => rw [circleSegsLoop, ht] at h; exact absurd h (by simp)
    | some cs =>
      rw [circleSegsLoop_cons_some ht] at h
      obtain ⟨h1, es, h2, h3⟩ := ih h
      refine ⟨h1, { spec := cs, bc := c.bnd, leftdomain := c.din,
                    rightdomain := c.dout } :: es, ?_, by simp [h3]⟩
      rw [h2]
      simp [Geom.Append, Geom.AppendEntry]

theorem appendPointsLoop_eq (pts : List Point) (nums : List ℕ) (g : Geom) :
    appendPointsLoop pts nums g =
      (nums ++ (List.range pts.length).map (fun k => g.points.length + k),
       { g with points := g.points ++ pts }) := by
  induction pts generalizing nums g with
  | nil => simp [appendPointsLoop]
  | cons p rest ih =>
    rw [appendPointsLoop]
    simp only [Geom.AppendPoint]
    rw [ih]
    refine Prod.ext ?_ ?_
    · simp only [List.length_cons, List.range_succ_eq_map, List.map_cons, List.map_map]
      have hfun : ((fun k => g.points.length + k) ∘ Nat.succ) =
          (fun k => (g.points ++ [p]).length + k) := by
        funext k
        simp
        omega
      simp [hfun]
    · simp

theorem circle_make_geometry_eq {c : Circle} {g g1 g2 : Geom} {nums : List ℕ}
    (hp : appendPointsLoop c.pts [] g = (nums, g1))
    (hs : circleSegsLoop c nums (List.range 4) g1 = some g2) :
    c.make_geometry g = some ({ c with nums := nums }, g2) := by
  rw [Circle.make_geometry, hp]
  simp [hs]

theorem circle_make_geometry_some {c : Circle} {g : Geom} {c' : Circle} {g' : Geom}
    (h : c.make_geometry g = some (c', g')) :
    ∃ nums g1, appendPointsLoop c.pts [] g = (nums, g1) ∧
      circleSegsLoop c nums (List.range 4) g1 = some g' ∧
      c' = { c with nums := nums } := by
  rw [Circle.make_geometry] at h
  cases hp : appendPointsLoop c.pts [] g with
  | mk nums g1 =>
    rw [hp] at h
    simp only [Option.map_eq_some'] at h
    obtain ⟨g2, hs, he⟩ := h
    have h1 : ({ c with nums := nums } : Circle) = c' := congrArg Prod.fst he
    have h2 : g2 = g' := congrArg Prod.snd he
    subst h2
    exact ⟨nums, g1, rfl, hs, h1.symm⟩

theorem circleLoop_nil {done : List Circle} {g : Geom} :
    circleLoop [] done g = some (done, g) := rfl

theorem circleLoop_cons_some {c c1 : Circle} {rest done : List Circle} {g g1 : Geom}
    (h : c.make_geometry g = some (c1, g1)) :
    circleLoop (c :: rest) done g = circleLoop rest (done ++ [c1]) g1 := by
  rw [circleLoop, h]
  rfl

theorem circleLoop_cons_some_inv {c : Circle} {rest done : List Circle} {g : Geom}
    {circs : List Circle} {g' : Geom}
    (h : circleLoop (c :: rest) done g = some (circs, g')) :
    ∃ c1 g1, c.make_geometry g = some (c1, g1) ∧
      circleLoop rest (done ++ [c1]) g1 = some (circs, g') := by
  rw [circleLoop] at h
  simp only [Option.bind_eq_some] at h
  obtain ⟨⟨c1, g1⟩, hm, hrest⟩ := h
  exact ⟨c1, g1, hm, hrest⟩

theorem circleLoop_ext {cs done circs : List Circle} {g g' : Geom}
    (h : circleLoop cs done g = some (circs, g')) :
    (∃ ap, g'.points = g.points ++ ap) ∧ (∃ es, g'.segments = g.segments ++ es) ∧
    circs.map Circle.pts = done.map Circle.pts ++ cs.map Circle.pts := by
  induction cs generalizing done g with
  | nil =>
    obtain ⟨rfl, rfl⟩ : done = circs ∧ g = g' := by simpa [circleLoop_nil] using h
    exact ⟨⟨[], by simp⟩, ⟨[], by simp⟩, by simp⟩
  | cons c rest ih =>
    obtain ⟨c1, g1, hm, hrest⟩ := circleLoop_cons_some_inv h
    obtain ⟨⟨ap2, hap2⟩, ⟨es2, hes2⟩, hmap⟩ := ih hrest
    obtain ⟨nums, gmid, hp, hs, hc1⟩ := circle_make_geometry_some hm
    rw [appendPointsLoop_eq] at hp
    have hmid : gmid = { g with points := g.points ++ c.pts } :=
      (congrArg Prod.snd hp).symm
    obtain ⟨hpts, es1, hes1, -⟩ := circleSegsLoop_ext hs
    refine ⟨⟨c.pts ++ ap2, ?_⟩, ⟨es1 ++ es2, ?_⟩, ?_⟩
    · rw [hap2, hpts, hmid]
      simp
    · rw [hes2, hes1, hmid]
      simp
    · rw [hmap]
      simp [hc1]

theorem make_geometry_eq {e : EzGeom} {rects : List Rectangle} {circs : List Circle}
    {g1 g2 : Geom}
    (hr : rectLoop e.rectangles [] e.geom = some (rects, g1))
    (hc : circleLoop e.circles [] g1 = some (circs, g2)) :
    e.make_geometry = some { rectangles := rects, circles := circs, geom := g2 } := by
  rw [EzGeom.make_geometry, hr]
  simp [hc]

theorem make_geometry_some {e e' : EzGeom} (h : e.make_geometry = some e') :
    ∃ rects g1 circs g2, rectLoop e.rectangles [] e.geom = some (rects, g1) ∧
      circleLoop e.circles [] g1 = some (circs, g2) ∧
      e' = { rectangles := rects, circles := circs, geom := g2 } := by
  rw [EzGeom.make_geometry] at h
  simp only [Option.bind_eq_some, Option.map_eq_some'] at h
  obtain ⟨⟨rects, g1⟩, hr, ⟨circs, g2⟩, hc, he⟩ := h
  exact ⟨rects, g1, circs, g2, hr, hc, he.symm⟩

/-! Claim theorems. -/

/-- Claim C6 counterexample: the claim says the 8 control points lie "at
angles 0,45,...,315 degrees scaled by radius from the center", i.e. at
distance r from the center, and that this is equivalent to the bounding
square's cardinal and diagonal extremes.  For the unit circle at the origin
the second derived control point is (1,1), whose squared distance from the
center is 2, not 1x1 — the diagonal points are not radius-scaled direction
vectors, so the claim as stated is false of the code. -/
theorem C6_counterexample :
    (mkCircle (0, 0) 1 0 0 0).pts[1]? = some (1, 1) ∧
    ¬ (((1 : ℚ) - 0) ^ 2 + ((1 : ℚ) - 0) ^ 2 = 1 ^ 2) := by
  constructor
  · norm_num [mkCircle]
  · norm_num

/-- Claim C6 (amended): the circle constructor with center (cx,cy) and
radius r derives exactly 8 control points at the cardinal and diagonal
extremes of the circle's bounding square (the cardinal points at distance r
at angles 0, 90, 180, 270 degrees; the diagonal points at the square's
corners, offset by (plus-minus r, plus-minus r)), ordered with the east
point (cx+r,cy) first and proceeding counter-clockwise. -/
theorem C6_circle_control_points (cx cy r : ℚ) (b d o : ℤ) :
    (mkCircle (cx, cy) r b d o).pts =
      [(cx + r, cy), (cx + r, cy + r), (cx, cy + r), (cx - r, cy + r),
       (cx - r, cy), (cx - r, cy - r), (cx, cy - r), (cx + r, cy - r)] := rfl

/-- Claim C7: registering a circle always appends exactly 8 fresh points
(their identifiers continue from the current end of the description, so no
identifier of a previously registered shape is reused) and then exactly 4
spline3 edges whose control triples are the point identifiers at offsets
(0,1,2), (2,3,4), (4,5,6), (6,7,0) of the circle's point list, each carrying
the circle's boundary tag, inner-domain id and scalar outer-domain id. -/
theorem C7_circle_registration (cx cy r : ℚ) (b d o : ℤ) (g : Geom) :
    (mkCircle (cx, cy) r b d o).make_geometry g =
      some ({ mkCircle (cx, cy) r b d o with
                nums := [g.points.length, g.points.length + 1, g.points.length + 2,
                         g.points.length + 3, g.points.length + 4, g.points.length + 5,
                         g.points.length + 6, g.points.length + 7] },
            { points := g.points ++ (mkCircle (cx, cy) r b d o).pts,
              segments := g.segments ++
                [{ spec := CurveSpec.spline3 g.points.length (g.points.length + 1)
                     (g.points.length + 2), bc := b, leftdomain := d, rightdomain := o },
                 { spec := CurveSpec.spline3 (g.points.length + 2) (g.points.length + 3)
                     (g.points.length + 4), bc := b, leftdomain := d, rightdomain := o },
                 { spec := CurveSpec.spline3 (g.points.length + 4) (g.points.length + 5)
                     (g.points.length + 6), bc := b, leftdomain := d, rightdomain := o },
                 { spec := CurveSpec.spline3 (g.points.length + 6) (g.points.length + 7)
                     g.points.length, bc := b, leftdomain := d, rightdomain := o }] }) := by
  have hp : appendPointsLoop (mkCircle (cx, cy) r b d o).pts [] g =
      ([g.points.length, g.points.length + 1, g.points.length + 2,
        g.points.length + 3, g.points.length + 4, g.points.length + 5,
        g.points.length + 6, g.points.length + 7],
       { g with points := g.points ++ (mkCircle (cx, cy) r b d o).pts }) := by
    rw [appendPointsLoop_eq]
    refine Prod.ext ?_ rfl
    have hlen : (mkCircle (cx, cy) r b d o).pts.length = 8 := rfl
    rw [hlen]
    simp [List.range_succ]
  have ht : ∀ k : ℕ, k < 8 →
      [g.points.length, g.points.length + 1, g.points.length + 2,
       g.points.length + 3, g.points.length + 4, g.points.length + 5,
       g.points.length + 6, g.points.length + 7][k]? = some (g.points.length + k) := by
    intro k hk
    interval_cases k <;> simp
  have hs : circleSegsLoop (mkCircle (cx, cy) r b d o)
      [g.points.length, g.points.length + 1, g.points.length + 2,
       g.points.length + 3, g.points.length + 4, g.points.length + 5,
       g.points.length + 6, g.points.length + 7] (List.range 4)
      { g with points := g.points ++ (mkCircle (cx, cy) r b d o).pts } = some
      { points := g.points ++ (mkCircle (cx, cy) r b d o).pts,
        segments := g.segments ++
          [{ spec := CurveSpec.spline3 g.points.length (g.points.length + 1)
               (g.points.length + 2), bc := b, leftdomain := d, rightdomain := o },
           { spec := CurveSpec.spline3 (g.points.length + 2) (g.points.length + 3)
               (g.points.length + 4), bc := b, leftdomain := d, rightdomain := o },
           { spec := CurveSpec.spline3 (g.points.length + 4) (g.points.length + 5)
               (g.points.length + 6), bc := b, leftdomain := d, rightdomain := o },
           { spec := CurveSpec.spline3 (g.points.length + 6) (g.points.length + 7)
               g.points.length, bc := b, leftdomain := d, rightdomain := o }] } := by
    have h0 := ht 0 (by omega)
    have h1 := ht 1 (by omega)
    have h2 := ht 2 (by omega)
    have h3 := ht 3 (by omega)
    have h4 := ht 4 (by omega)
    have h5 := ht 5 (by omega)
    have h6 := ht 6 (by omega)
    have h7 := ht 7 (by omega)
    have hrange : (List.range 4) = [0, 1, 2, 3] := rfl
    rw [hrange]
    rw [circleSegsLoop_cons_some (by rw [circleTriple]; simp only [h0, h1, h2]; rfl)]
    rw [circleSegsLoop_cons_some (by rw [circleTriple]; simp only [h2, h3, h4]; rfl)]
    rw [circleSegsLoop_cons_some (by rw [circleTriple]; simp only [h4, h5, h6]; rfl)]
    rw [circleSegsLoop_cons_some (by rw [circleTriple]; simp only [h6, h7, h0]; rfl)]
    rw [circleSegsLoop_nil]
    simp [Geom.Append, Geom.AppendEntry, mkCircle]
  have := circle_make_geometry_eq hp hs
  simpa using this

/-- Claim C8: looking up the recorded identifier of a point that is not in
the rectangle's own corner set fails (Python ValueError, modelled by none),
and for a fully registered rectangle (at least as many recorded identifiers
as corners) the lookup of an owned point returns the identifier recorded at
that corner's first position: the lookup fails exactly when the rectangle
does not own the point. -/
theorem C8_get_num_contract (r : Rectangle) (h : r.pts.length ≤ r.nums.length)
    (pt : Point) :
    (r.get_num pt = none ↔ pt ∉ r.pts) ∧
    (pt ∈ r.pts → ∃ k : ℕ, listIndex r.pts pt = some k ∧
      r.get_num pt = r.nums[k]? ∧ (r.get_num pt).isSome) := by
  refine ⟨get_num_eq_none_iff h pt, ?_⟩
  intro hmem
  cases hidx : listIndex r.pts pt with
  | none => rw [listIndex_eq_none] at hidx; exact absurd hmem hidx
  | some k =>
    have hk : k < r.nums.length := lt_of_lt_of_le (listIndex_lt_length hidx) h
    have hval : r.get_num pt = r.nums[k]? := by
      rw [Rectangle.get_num, hidx]
    exact ⟨k, rfl, hval, by rw [hval]; simp [List.getElem?_eq_getElem hk]⟩

/-- Claim C8 witness: a registered rectangle owning (2,1) at corner index 2
answers the recorded identifier 7 there, and fails on the foreign point
(9,9). -/
theorem C8_witness :
    (({ mkRectangle (0, 0) (2, 1) 1 1 (Dout.scalar 0) with
          nums := [5, 6, 7, 8] } : Rectangle).get_num (9, 9) = none ↔
        ((9 : ℚ), (9 : ℚ)) ∉ ({ mkRectangle (0, 0) (2, 1) 1 1 (Dout.scalar 0) with
          nums := [5, 6, 7, 8] } : Rectangle).pts) ∧
    (((2 : ℚ), (1 : ℚ)) ∈ ({ mkRectangle (0, 0) (2, 1) 1 1 (Dout.scalar 0) with
          nums := [5, 6, 7, 8] } : Rectangle).pts →
      ∃ k : ℕ, listIndex ({ mkRectangle (0, 0) (2, 1) 1 1 (Dout.scalar 0) with
          nums := [5, 6, 7, 8] } : Rectangle).pts ((2 : ℚ), (1 : ℚ)) = some k ∧
        ({ mkRectangle (0, 0) (2, 1) 1 1 (Dout.scalar 0) with
          nums := [5, 6, 7, 8] } : Rectangle).get_num (2, 1) =
          ({ mkRectangle (0, 0) (2, 1) 1 1 (Dout.scalar 0) with
          nums := [5, 6, 7, 8] } : Rectangle).nums[k]? ∧
        (({ mkRectangle (0, 0) (2, 1) 1 1 (Dout.scalar 0) with
          nums := [5, 6, 7, 8] } : Rectangle).get_num (2, 1)).isSome) := by
  constructor
  · exact (C8_get_num_contract _ (by decide) _).1
  · exact (C8_get_num_contract _ (by decide) _).2

/-- Claim C4 counterexample: the rectangle constructor accepts the 2-element
outer-domain list [5,6] (neither a scalar nor a 4-element sequence) without
any error — the constructed rectangle is fully formed, with the malformed
spec stored as is — and registering that rectangle later fails (the Python
IndexError from dout[2] during segment registration, modelled by none),
contradicting "caught at construction time ... rather than accepting it and
failing later during segment registration". -/
theorem C4_counterexample :
    (mkRectangle (0, 0) (1, 1) 1 1 (Dout.list [5, 6])).pts =
      [(0, 0), (1, 0), (1, 1), (0, 1)] ∧
    (mkRectangle (0, 0) (1, 1) 1 1 (Dout.list [5, 6])).dout = Dout.list [5, 6] ∧
    (mkRectangle (0, 0) (1, 1) 1 1 (Dout.list [5, 6])).make_geometry [] Geom.empty =
      none := by
  refine ⟨rfl, rfl, ?_⟩
  decide

/-- Claim C4 (amended): the rectangle constructor performs no validation of
the outer-domain argument (it stores whatever it is given); for a list
outer-domain, registering the rectangle in isolation fails — with a Python
IndexError at segment registration, not at construction — exactly when the
list has fewer than 4 elements. -/
theorem C4_no_construction_validation (bl tr : Point) (b d : ℤ) (l : List ℤ)
    (g : Geom) :
    (mkRectangle bl tr b d (Dout.list l)).dout = Dout.list l ∧
    ((mkRectangle bl tr b d (Dout.list l)).make_geometry [] g = none ↔
      l.length < 4) := by
  refine ⟨rfl, ?_⟩
  have hown : OwnsIds ([] : List Rectangle) := by
    intro rect hr
    simp at hr
  have hps := add_points_isSome (r := mkRectangle bl tr b d (Dout.list l)) hown g
  rw [Option.isSome_iff_exists] at hps
  obtain ⟨⟨r1, g1⟩, hp⟩ := hps
  obtain ⟨nums, hloop, hr1⟩ := add_points_some hp
  obtain ⟨suffix, hsuf, hsuflen⟩ := addPointsLoop_nums_ext hloop
  have hnumslen : nums.length = 4 := by
    rw [hsuf]
    simp only [mkRectangle_nums, List.nil_append]
    rw [hsuflen, mkRectangle_pts_length]
  have hpts1 : r1.pts = (mkRectangle bl tr b d (Dout.list l)).pts := by rw [hr1]
  have hsegs1 : r1.segs = (mkRectangle bl tr b d (Dout.list l)).segs := by rw [hr1]
  have hnums1 : r1.nums = nums := by rw [hr1]
  have hdout1 : r1.dout = Dout.list l := by
    rw [hr1]
    rfl
  have hseglen : r1.segs.length = 4 := by
    rw [hsegs1, mkRectangle_segs_length]
  have hmk : (mkRectangle bl tr b d (Dout.list l)).make_geometry [] g = none ↔
      r1.add_segs [] g1 = none := by
    rw [Rectangle.make_geometry, hp]
    simp
  rw [hmk]
  constructor
  · intro hnone
    by_contra hge
    push_neg at hge
    have hok : ∀ i ∈ List.range r1.segs.length,
        suppressedB r1 [] i = true ∨ (segEntryAt r1 i).isSome := by
      intro i hi
      rw [hseglen] at hi
      have hi4 : i < 4 := List.mem_range.mp hi
      refine Or.inr (segEntryAt_isSome ?_ ?_ ?_ ?_)
      · rw [hpts1, hnums1, mkRectangle_pts_length, hnumslen]
      · have := rectSeg_fst_mem bl tr b d (Dout.list l) hi4
        rw [rectSeg] at this
        rw [← hpts1, ← hsegs1] at this
        exact this
      · have := rectSeg_snd_mem bl tr b d (Dout.list l) hi4
        rw [rectSeg] at this
        rw [← hpts1, ← hsegs1] at this
        exact this
      · rw [hdout1, doutAt_list]
        have : i < l.length := by omega
        simp [List.getElem?_eq_getElem this]
    have := addSegsLoop_isSome hok g1
    rw [Rectangle.add_segs] at hnone
    rw [hnone] at this
    exact absurd this (by simp)
  · intro hlt
    cases hres : r1.add_segs [] g1 with
    | none => rfl
    | some g2 =>
      exfalso
      rw [Rectangle.add_segs] at hres
      have hmem : l.length ∈ List.range r1.segs.length := by
        rw [hseglen]
        exact List.mem_range.mpr hlt
      rcases addSegsLoop_some_entries hres (l.length) hmem with hsup | hent
      · rw [suppressedB] at hsup
        simp at hsup
      · rw [Option.isSome_iff_exists] at hent
        obtain ⟨e, he⟩ := hent
        obtain ⟨i1, i2, n1, n2, dv, -, -, -, -, hdv, -⟩ := segEntryAt_some he
        rw [hdout1, doutAt_list] at hdv
        obtain ⟨hlt2, -⟩ := List.getElem?_eq_some.mp hdv
        exact absurd hlt2 (lt_irrefl _)

theorem find?_isNone_eq_not_any {α : Type} (p : α → Bool) (l : List α) :
    (l.find? p).isNone = !(l.any p) := by
  induction l with
  | nil => rfl
  | cons x xs ih =>
    cases hx : p x
    · simp [List.find?_cons, hx, ih]
    · simp [List.find?_cons, hx]

/-- Claim C2: during point registration of a rectangle (whose nums list is
still empty, as the constructor leaves it), for each corner in the fixed
stored order the prior rectangles are scanned in their list order: the
first prior rectangle owning an exactly-equal point supplies the identifier
it recorded (and no point is appended for that corner — the description
grows by exactly the unmatched corners, in order); a corner owned by no
prior rectangle is appended fresh and its new identifier is recorded. -/
theorem C2_point_scan (r : Rectangle) (others : List Rectangle) (g : Geom)
    (r' : Rectangle) (g' : Geom) (hnums : r.nums = [])
    (h : r.add_points others g = some (r', g')) :
    r'.pts = r.pts ∧ r'.nums.length = r.pts.length ∧
    g'.points = g.points ++
      r.pts.filter (fun pt => !(others.any (fun rect => rect.has_pt pt))) ∧
    (∀ k, k < r.pts.length →
      (∀ pre rect post, others = pre ++ rect :: post →
        rect.has_pt (r.pts.getD k (0, 0)) = true →
        (∀ s ∈ pre, s.has_pt (r.pts.getD k (0, 0)) = false) →
        r'.nums[k]? = rect.get_num (r.pts.getD k (0, 0))) ∧
      ((∀ rect ∈ others, rect.has_pt (r.pts.getD k (0, 0)) = false) →
        ∃ n : ℕ, r'.nums[k]? = some n ∧ g.points.length ≤ n ∧
          g'.points[n]? = some (r.pts.getD k (0, 0)))) := by
  obtain ⟨nums, hloop, hr'⟩ := add_points_some h
  rw [hnums] at hloop
  obtain ⟨suffix, hsuf, hsuflen⟩ := addPointsLoop_nums_ext hloop
  have hpts' : r'.pts = r.pts := by rw [hr']
  have hnums' : r'.nums = nums := by rw [hr']
  refine ⟨hpts', ?_, ?_, ?_⟩
  · rw [hnums', hsuf]
    simpa using hsuflen
  · obtain ⟨hpoints, -⟩ := addPointsLoop_geom hloop
    rw [hpoints]
    congr 1
    refine List.filter_congr ?_
    intro pt hpt
    rw [find?_isNone_eq_not_any]
  · intro k hk
    constructor
    · intro pre rect post hdec hpt hpre
      have hfind : others.find? (fun r0 => r0.has_pt (r.pts.getD k (0, 0))) = some rect := by
        rw [hdec]
        exact find?_first _ pre post rect hpt (fun s hs => hpre s hs)
      have := addPointsLoop_idx_matched hloop hk hfind
      rw [hnums']
      simpa using this
    · intro hnom
      have hfind : others.find? (fun r0 => r0.has_pt (r.pts.getD k (0, 0))) = none := by
        rw [List.find?_eq_none]
        intro x hx
        rw [hnom x hx]
        simp
      have := addPointsLoop_idx_fresh hloop hk hfind
      rw [hnums']
      simpa using this

/-- Claim C2 witness: an isolated rectangle (no prior rectangles) has all
four corners appended fresh, in stored order. -/
theorem C2_witness :
    ({ points := [((0 : ℚ), (0 : ℚ)), (1, 0), (1, 1), (0, 1)],
       segments := [] } : Geom).points =
      Geom.empty.points ++ (mkRectangle (0, 0) (1, 1) 1 1 (Dout.scalar 0)).pts.filter
        (fun pt => !(([] : List Rectangle).any (fun rect => rect.has_pt pt))) :=
  (C2_point_scan (mkRectangle (0, 0) (1, 1) 1 1 (Dout.scalar 0)) [] Geom.empty
    ({ mkRectangle (0, 0) (1, 1) 1 1 (Dout.scalar 0) with nums := [0, 1, 2, 3] })
    ({ points := [((0 : ℚ), (0 : ℚ)), (1, 0), (1, 1), (0, 1)], segments := [] })
    rfl (by decide)).2.2.1

/-- Claim C10: when a rectangle's directed edge at index i is suppressed as
a duplicate (some prior rectangle's edge list contains its exact reverse),
nothing at all is appended to the description for that index — the appended
entries are exactly those of the other, unsuppressed indices, and every
entry of the resulting description either predates this rectangle or stems
from an unsuppressed index different from i; in particular the rectangle's
boundary tag, inner-domain and outer-domain value for edge i never enter
the description. -/
theorem C10_suppressed_edge_frame (r : Rectangle) (others : List Rectangle)
    (g g' : Geom) (h : r.add_segs others g = some g') (i : ℕ)
    (hi : i < r.segs.length)
    (hsup : ∃ s ∈ others, ((rectSeg r i).2, (rectSeg r i).1) ∈ s.segs) :
    g'.segments = g.segments ++
      (List.range r.segs.length).filterMap (fun j =>
        if j = i then none
        else if suppressedB r others j then none else segEntryAt r j) ∧
    ∀ e ∈ g'.segments, e ∈ g.segments ∨
      ∃ j, j < r.segs.length ∧ j ≠ i ∧ suppressedB r others j = false ∧
        segEntryAt r j = some e := by
  have hsupB : suppressedB r others i = true := (suppressedB_iff r others i).mpr hsup
  rw [Rectangle.add_segs] at h
  obtain ⟨hseg, -⟩ := addSegsLoop_segments h
  have hmain : g'.segments = g.segments ++
      (List.range r.segs.length).filterMap (fun j =>
        if j = i then none
        else if suppressedB r others j then none else segEntryAt r j) := by
    rw [hseg]
    congr 1
    refine List.filterMap_congr ?_
    intro j hj
    by_cases hji : j = i
    · subst hji
      simp [hsupB]
    · simp [hji]
  refine ⟨hmain, ?_⟩
  intro e he
  rw [hmain] at he
  rcases List.mem_append.mp he with h1 | h1
  · exact Or.inl h1
  · right
    obtain ⟨j, hj, hfe⟩ := List.mem_filterMap.mp h1
    have hjlen : j < r.segs.length := List.mem_range.mp hj
    by_cases hji : j = i
    · subst hji
      rw [if_pos rfl] at hfe
      exact absurd hfe (by simp)
    · rw [if_neg hji] at hfe
      cases hsb : suppressedB r others j with
      | true =>
        rw [hsb] at hfe
        simp at hfe
      | false =>
        rw [hsb] at hfe
        simp only [Bool.false_eq_true, if_false] at hfe
        exact ⟨j, hjlen, hji, hsb, hfe⟩

/-- Claim C10 witness: a rectangle stacked on top of an already registered
one has its bottom edge (index 0) suppressed, so the description's appended
entries stem only from the other three indices. -/
theorem C10_witness :
    ({ points := [((0 : ℚ), (0 : ℚ)), (1, 0), (1, 1), (0, 1), (1, 2), (0, 2)],
       segments :=
         [{ spec := CurveSpec.line 0 1, bc := 1, leftdomain := 1, rightdomain := 0 },
          { spec := CurveSpec.line 1 2, bc := 1, leftdomain := 1, rightdomain := 0 },
          { spec := CurveSpec.line 2 3, bc := 1, leftdomain := 1, rightdomain := 0 },
          { spec := CurveSpec.line 3 0, bc := 1, leftdomain := 1, rightdomain := 0 },
          { spec := CurveSpec.line 2 4, bc := 2, leftdomain := 2, rightdomain := 0 },
          { spec := CurveSpec.line 4 5, bc := 2, leftdomain := 2, rightdomain := 0 },
          { spec := CurveSpec.line 5 3, bc := 2, leftdomain := 2, rightdomain := 0 }]
     } : Geom).segments =
      ({ points := [((0 : ℚ), (0 : ℚ)), (1, 0), (1, 1), (0, 1), (1, 2), (0, 2)],
         segments :=
           [{ spec := CurveSpec.line 0 1, bc := 1, leftdomain := 1, rightdomain := 0 },
            { spec := CurveSpec.line 1 2, bc := 1, leftdomain := 1, rightdomain := 0 },
            { spec := CurveSpec.line 2 3, bc := 1, leftdomain := 1, rightdomain := 0 },
            { spec := CurveSpec.line 3 0, bc := 1, leftdomain := 1, rightdomain := 0 }]
       } : Geom).segments ++
      (List.range ({ mkRectangle (0, 1) (1, 2) 2 2 (Dout.scalar 0) with
          nums := [3, 2, 4, 5] } : Rectangle).segs.length).filterMap (fun j =>
        if j = 0 then none
        else if suppressedB { mkRectangle (0, 1) (1, 2) 2 2 (Dout.scalar 0) with
            nums := [3, 2, 4, 5] }
            [{ mkRectangle (0, 0) (1, 1) 1 1 (Dout.scalar 0) with
               nums := [0, 1, 2, 3] }] j then none
        else segEntryAt { mkRectangle (0, 1) (1, 2) 2 2 (Dout.scalar 0) with
            nums := [3, 2, 4, 5] } j) :=
  (C10_suppressed_edge_frame
    ({ mkRectangle (0, 1) (1, 2) 2 2 (Dout.scalar 0) with nums := [3, 2, 4, 5] })
    [{ mkRectangle (0, 0) (1, 1) 1 1 (Dout.scalar 0) with nums := [0, 1, 2, 3] }]
    ({ points := [((0 : ℚ), (0 : ℚ)), (1, 0), (1, 1), (0, 1), (1, 2), (0, 2)],
       segments :=
         [{ spec := CurveSpec.line 0 1, bc := 1, leftdomain := 1, rightdomain := 0 },
          { spec := CurveSpec.line 1 2, bc := 1, leftdomain := 1, rightdomain := 0 },
          { spec := CurveSpec.line 2 3, bc := 1, leftdomain := 1, rightdomain := 0 },
          { spec := CurveSpec.line 3 0, bc := 1, leftdomain := 1, rightdomain := 0 }]
     })
    ({ points := [((0 : ℚ), (0 : ℚ)), (1, 0), (1, 1), (0, 1), (1, 2), (0, 2)],
       segments :=
         [{ spec := CurveSpec.line 0 1, bc := 1, leftdomain := 1, rightdomain := 0 },
          { spec := CurveSpec.line 1 2, bc := 1, leftdomain := 1, rightdomain := 0 },
          { spec := CurveSpec.line 2 3, bc := 1, leftdomain := 1, rightdomain := 0 },
          { spec := CurveSpec.line 3 0, bc := 1, leftdomain := 1, rightdomain := 0 },
          { spec := CurveSpec.line 2 4, bc := 2, leftdomain := 2, rightdomain := 0 },
          { spec := CurveSpec.line 4 5, bc := 2, leftdomain := 2, rightdomain := 0 },
          { spec := CurveSpec.line 5 3, bc := 2, leftdomain := 2, rightdomain := 0 }]
     })
    (by decide) 0 (by decide) (by decide)).1

/-- Claim C3 counterexample: rectangles ((0,0),(2,1)) and ((0,0),(2,3))
share their bottom edge in the SAME direction (the later rectangle's
directed edge 0 equals the earlier one's edge 0 exactly), yet the later
rectangle does not suppress it: after finalize the edge between (0,0) and
(2,0) appears twice in the description, refuting "every edge appears at
most once in either direction ... equals ... either exactly or exactly
reversed ... suppresses". -/
theorem C3_counterexample :
    rectSeg (mkRectangle (0, 0) (2, 3) 1 2 (Dout.scalar 0)) 0 =
      rectSeg (mkRectangle (0, 0) (2, 1) 1 1 (Dout.scalar 0)) 0 ∧
    (((EzGeom.new.add_rect (0, 0) (2, 1) 1 1 (Dout.scalar 0)).add_rect
        (0, 0) (2, 3) 1 2 (Dout.scalar 0)).make_geometry).map
      (fun e => lineCount e.geom (0, 0) (2, 0)) = some 2 := by
  constructor
  · decide
  · decide

/-- Claim C3 (amended): re-registration of a later rectangle's edge is
suppressed exactly when some earlier rectangle's edge list contains its
exact reverse; an edge shared in the same direction is not suppressed (and
is therefore registered again).  The appended entries of add_segs are
precisely those of the edge indices with no exactly-reversed duplicate in
a prior rectangle. -/
theorem C3_reverse_only_dedup (r : Rectangle) (others : List Rectangle)
    (g g' : Geom) (h : r.add_segs others g = some g') :
    g'.segments = g.segments ++
      (List.range r.segs.length).filterMap (fun i =>
        if ∃ s ∈ others, ((rectSeg r i).2, (rectSeg r i).1) ∈ s.segs
        then none
        else segEntryAt r i) := by
  rw [Rectangle.add_segs] at h
  obtain ⟨hseg, -⟩ := addSegsLoop_segments h
  rw [hseg]
  congr 1
  refine List.filterMap_congr ?_
  intro i hi
  by_cases hc : ∃ s ∈ others, ((rectSeg r i).2, (rectSeg r i).1) ∈ s.segs
  · have hb : suppressedB r others i = true := (suppressedB_iff r others i).mpr hc
    simp [hb, hc]
  · have hb : suppressedB r others i = false := by
      cases hbv : suppressedB r others i with
      | false => rfl
      | true => exact absurd ((suppressedB_iff r others i).mp hbv) hc
    simp [hb, hc]

/-- Claim C3 witness: the stacked pair of the C10 scenario — the later
rectangle's appended entries are exactly the unsuppressed ones given by the
reversal test. -/
theorem C3_witness :
    ({ points := [((0 : ℚ), (0 : ℚ)), (1, 0), (1, 1), (0, 1), (1, 2), (0, 2)],
       segments :=
         [{ spec := CurveSpec.line 0 1, bc := 1, leftdomain := 1, rightdomain := 0 },
          { spec := CurveSpec.line 1 2, bc := 1, leftdomain := 1, rightdomain := 0 },
          { spec := CurveSpec.line 2 3, bc := 1, leftdomain := 1, rightdomain := 0 },
          { spec := CurveSpec.line 3 0, bc := 1, leftdomain := 1, rightdomain := 0 },
          { spec := CurveSpec.line 2 4, bc := 2, leftdomain := 2, rightdomain := 0 },
          { spec := CurveSpec.line 4 5, bc := 2, leftdomain := 2, rightdomain := 0 },
          { spec := CurveSpec.line 5 3, bc := 2, leftdomain := 2, rightdomain := 0 }]
     } : Geom).segments =
      ({ points := [((0 : ℚ), (0 : ℚ)), (1, 0), (1, 1), (0, 1), (1, 2), (0, 2)],
         segments :=
           [{ spec := CurveSpec.line 0 1, bc := 1, leftdomain := 1, rightdomain := 0 },
            { spec := CurveSpec.line 1 2, bc := 1, leftdomain := 1, rightdomain := 0 },
            { spec := CurveSpec.line 2 3, bc := 1, leftdomain := 1, rightdomain := 0 },
            { spec := CurveSpec.line 3 0, bc := 1, leftdomain := 1, rightdomain := 0 }]
       } : Geom).segments ++
      (List.range ({ mkRectangle (0, 1) (1, 2) 2 2 (Dout.scalar 0) with
          nums := [3, 2, 4, 5] } : Rectangle).segs.length).filterMap (fun i =>
        if ∃ s ∈ [({ mkRectangle (0, 0) (1, 1) 1 1 (Dout.scalar 0) with
               nums := [0, 1, 2, 3] } : Rectangle)],
            ((rectSeg { mkRectangle (0, 1) (1, 2) 2 2 (Dout.scalar 0) with
                nums := [3, 2, 4, 5] } i).2,
             (rectSeg { mkRectangle (0, 1) (1, 2) 2 2 (Dout.scalar 0) with
                nums := [3, 2, 4, 5] } i).1) ∈ s.segs
        then none
        else segEntryAt { mkRectangle (0, 1) (1, 2) 2 2 (Dout.scalar 0) with
            nums := [3, 2, 4, 5] } i) :=
  C3_reverse_only_dedup
    ({ mkRectangle (0, 1) (1, 2) 2 2 (Dout.scalar 0) with nums := [3, 2, 4, 5] })
    [{ mkRectangle (0, 0) (1, 1) 1 1 (Dout.scalar 0) with nums := [0, 1, 2, 3] }]
    ({ points := [((0 : ℚ), (0 : ℚ)), (1, 0), (1, 1), (0, 1), (1, 2), (0, 2)],
       segments :=
         [{ spec := CurveSpec.line 0 1, bc := 1, leftdomain := 1, rightdomain := 0 },
          { spec := CurveSpec.line 1 2, bc := 1, leftdomain := 1, rightdomain := 0 },
          { spec := CurveSpec.line 2 3, bc := 1, leftdomain := 1, rightdomain := 0 },
          { spec := CurveSpec.line 3 0, bc := 1, leftdomain := 1, rightdomain := 0 }]
     })
    ({ points := [((0 : ℚ), (0 : ℚ)), (1, 0), (1, 1), (0, 1), (1, 2), (0, 2)],
       segments :=
         [{ spec := CurveSpec.line 0 1, bc := 1, leftdomain := 1, rightdomain := 0 },
          { spec := CurveSpec.line 1 2, bc := 1, leftdomain := 1, rightdomain := 0 },
          { spec := CurveSpec.line 2 3, bc := 1, leftdomain := 1, rightdomain := 0 },
          { spec := CurveSpec.line 3 0, bc := 1, leftdomain := 1, rightdomain := 0 },
          { spec := CurveSpec.line 2 4, bc := 2, leftdomain := 2, rightdomain := 0 },
          { spec := CurveSpec.line 4 5, bc := 2, leftdomain := 2, rightdomain := 0 },
          { spec := CurveSpec.line 5 3, bc := 2, leftdomain := 2, rightdomain := 0 }]
     })
    (by decide)

/-- Claim C5: for a proper rectangle (x1 < x2, y1 < y2) the stored edges
are, in index order, the bottom (left to right at y1), right, top and left
sides — i.e. counting starts at the bottom edge and proceeds
counter-clockwise; with a 4-element outer-domain list [d0,d1,d2,d3] every
entry built for edge i carries outer domain d_i (and the rectangle's
boundary tag and inner domain), and with a scalar outer domain D every
entry carries D; the appended entries are exactly those of the unsuppressed
indices. -/
theorem C5_outer_domain_assignment (x1 y1 x2 y2 : ℚ) (hx : x1 < x2)
    (hy : y1 < y2) (b din : ℤ) (ns : List ℕ) (others : List Rectangle)
    (g : Geom) :
    (∀ d0 d1 d2 d3 : ℤ, ∀ g' : Geom,
      ({ mkRectangle (x1, y1) (x2, y2) b din (Dout.list [d0, d1, d2, d3]) with
          nums := ns } : Rectangle).add_segs others g = some g' →
      ({ mkRectangle (x1, y1) (x2, y2) b din (Dout.list [d0, d1, d2, d3]) with
          nums := ns } : Rectangle).segs =
        [((x1, y1), (x2, y1)), ((x2, y1), (x2, y2)),
         ((x2, y2), (x1, y2)), ((x1, y2), (x1, y1))] ∧
      g'.segments = g.segments ++ (List.range 4).filterMap (fun i =>
        if suppressedB { mkRectangle (x1, y1) (x2, y2) b din
            (Dout.list [d0, d1, d2, d3]) with nums := ns } others i then none
        else segEntryAt { mkRectangle (x1, y1) (x2, y2) b din
            (Dout.list [d0, d1, d2, d3]) with nums := ns } i) ∧
      (∀ i : ℕ, ∀ e : SegEntry,
        segEntryAt { mkRectangle (x1, y1) (x2, y2) b din
            (Dout.list [d0, d1, d2, d3]) with nums := ns } i = some e →
        e.bc = b ∧ e.leftdomain = din ∧
        e.rightdomain = [d0, d1, d2, d3].getD i 0)) ∧
    (∀ D : ℤ, ∀ g' : Geom,
      ({ mkRectangle (x1, y1) (x2, y2) b din (Dout.scalar D) with
          nums := ns } : Rectangle).add_segs others g = some g' →
      ({ mkRectangle (x1, y1) (x2, y2) b din (Dout.scalar D) with
          nums := ns } : Rectangle).segs =
        [((x1, y1), (x2, y1)), ((x2, y1), (x2, y2)),
         ((x2, y2), (x1, y2)), ((x1, y2), (x1, y1))] ∧
      g'.segments = g.segments ++ (List.range 4).filterMap (fun i =>
        if suppressedB { mkRectangle (x1, y1) (x2, y2) b din (Dout.scalar D) with
            nums := ns } others i then none
        else segEntryAt { mkRectangle (x1, y1) (x2, y2) b din (Dout.scalar D) with
            nums := ns } i) ∧
      (∀ i : ℕ, ∀ e : SegEntry,
        segEntryAt { mkRectangle (x1, y1) (x2, y2) b din (Dout.scalar D) with
            nums := ns } i = some e →
        e.bc = b ∧ e.leftdomain = din ∧ e.rightdomain = D)) := by
  constructor
  · intro d0 d1 d2 d3 g' h
    rw [Rectangle.add_segs] at h
    obtain ⟨hseg, -⟩ := addSegsLoop_segments h
    have hlen : ({ mkRectangle (x1, y1) (x2, y2) b din (Dout.list [d0, d1, d2, d3]) with
        nums := ns } : Rectangle).segs.length = 4 :=
      mkRectangle_segs_length (x1, y1) (x2, y2) b din (Dout.list [d0, d1, d2, d3])
    refine ⟨by simp [mkRectangle_segs], ?_, ?_⟩
    · rw [hseg, hlen]
    · intro i e he
      obtain ⟨i1, i2, n1, n2, dv, -, -, -, -, hdv, hee⟩ := segEntryAt_some he
      subst hee
      refine ⟨rfl, rfl, ?_⟩
      have hdl : doutAt (Dout.list [d0, d1, d2, d3]) i = some dv := hdv
      rw [doutAt_list] at hdl
      simp only
      rw [List.getD_eq_getElem?_getD, hdl]
      rfl
  · intro D g' h
    rw [Rectangle.add_segs] at h
    obtain ⟨hseg, -⟩ := addSegsLoop_segments h
    have hlen : ({ mkRectangle (x1, y1) (x2, y2) b din (Dout.scalar D) with
        nums := ns } : Rectangle).segs.length = 4 :=
      mkRectangle_segs_length (x1, y1) (x2, y2) b din (Dout.scalar D)
    refine ⟨by simp [mkRectangle_segs], ?_, ?_⟩
    · rw [hseg, hlen]
    · intro i e he
      obtain ⟨i1, i2, n1, n2, dv, -, -, -, -, hdv, hee⟩ := segEntryAt_some he
      subst hee
      refine ⟨rfl, rfl, ?_⟩
      have hds : doutAt (Dout.scalar D) i = some dv := hdv
      rw [doutAt_scalar] at hds
      simp only
      exact (Option.some.inj hds).symm

/-- Claim C5 witness: an isolated unit square with outer-domain list
[7,8,9,10] registers its four edges with outer domains 7,8,9,10 in order
(bottom, right, top, left). -/
theorem C5_witness :
    ({ mkRectangle ((0 : ℚ), (0 : ℚ)) (1, 1) 1 5 (Dout.list [7, 8, 9, 10]) with
        nums := [0, 1, 2, 3] } : Rectangle).segs =
      [((0, 0), (1, 0)), ((1, 0), (1, 1)), ((1, 1), (0, 1)), ((0, 1), (0, 0))] ∧
    ({ points := [], segments :=
        [{ spec := CurveSpec.line 0 1, bc := 1, leftdomain := 5, rightdomain := 7 },
         { spec := CurveSpec.line 1 2, bc := 1, leftdomain := 5, rightdomain := 8 },
         { spec := CurveSpec.line 2 3, bc := 1, leftdomain := 5, rightdomain := 9 },
         { spec := CurveSpec.line 3 0, bc := 1, leftdomain := 5, rightdomain := 10 }]
      } : Geom).segments =
      Geom.empty.segments ++ (List.range 4).filterMap (fun i =>
        if suppressedB { mkRectangle (0, 0) (1, 1) 1 5 (Dout.list [7, 8, 9, 10]) with
            nums := [0, 1, 2, 3] } [] i then none
        else segEntryAt { mkRectangle (0, 0) (1, 1) 1 5 (Dout.list [7, 8, 9, 10]) with
            nums := [0, 1, 2, 3] } i) ∧
    (∀ i : ℕ, ∀ e : SegEntry,
      segEntryAt { mkRectangle (0, 0) (1, 1) 1 5 (Dout.list [7, 8, 9, 10]) with
          nums := [0, 1, 2, 3] } i = some e →
      e.bc = 1 ∧ e.leftdomain = 5 ∧ e.rightdomain = [7, 8, 9, 10].getD i 0) :=
  (C5_outer_domain_assignment 0 0 1 1 (by norm_num) (by norm_num) 1 5 [0, 1, 2, 3]
    [] Geom.empty).1 7 8 9 10
    ({ points := [], segments :=
        [{ spec := CurveSpec.line 0 1, bc := 1, leftdomain := 5, rightdomain := 7 },
         { spec := CurveSpec.line 1 2, bc := 1, leftdomain := 5, rightdomain := 8 },
         { spec := CurveSpec.line 2 3, bc := 1, leftdomain := 5, rightdomain := 9 },
         { spec := CurveSpec.line 3 0, bc := 1, leftdomain := 5, rightdomain := 10 }] })
    (by decide)

theorem filterMap_length_of_isSome {α β : Type} {f : α → Option β} {l : List α}
    (h : ∀ x ∈ l, (f x).isSome) : (l.filterMap f).length = l.length := by
  induction l with
  | nil => rfl
  | cons x xs ih =>
    have hx := h x (List.mem_cons_self _ _)
    rw [Option.isSome_iff_exists] at hx
    obtain ⟨b, hb⟩ := hx
    rw [List.filterMap_cons, hb]
    simp [ih (fun y hy => h y (List.mem_cons_of_mem _ hy))]

/-- Claim C9: calling finalize a second time on the same builder does not
leave the description unchanged — it appends the shapes' points and edges
again.  For a builder whose first shape comes from the constructors (a
rectangle, or no rectangles and a circle), a successful second call grows
the registered points and edges by at least 4 each, so finalize is safe to
call only once per builder instance. -/
theorem C9_second_finalize_appends_again (e e1 e2 : EzGeom)
    (hshape : (∃ bl tr b d o rest, e.rectangles = mkRectangle bl tr b d o :: rest) ∨
      (e.rectangles = [] ∧
        ∃ cen rad b d o rest, e.circles = mkCircle cen rad b d o :: rest))
    (h1 : e.make_geometry = some e1) (h2 : e1.make_geometry = some e2) :
    e1.geom.points.length + 4 ≤ e2.geom.points.length ∧
    e1.geom.segments.length + 4 ≤ e2.geom.segments.length := by
  obtain ⟨rects, gA, circs, gB, hrl1, hcl1, he1⟩ := make_geometry_some h1
  obtain ⟨rects2, gC, circs2, gD, hrl2, hcl2, he2⟩ := make_geometry_some h2
  have he1r : e1.rectangles = rects := by rw [he1]
  have he1c : e1.circles = circs := by rw [he1]
  have he1g : e1.geom = gB := by rw [he1]
  have he2g : e2.geom = gD := by rw [he2]
  obtain ⟨-, -, hmap1, hmap1s⟩ := rectLoop_ext hrl1
  obtain ⟨-, -, hcmap1⟩ := circleLoop_ext hcl1
  rw [he1r, he1g] at hrl2
  rw [he1c] at hcl2
  rcases hshape with ⟨bl, tr, b, d, o, rest, hre⟩ | ⟨hre, cen, rad, b, d, o, rest, hce⟩
  · -- first shape is a rectangle: the second pass re-appends its 4 points
    -- and re-registers its 4 edges (no prior rectangles for index 0).
    rw [hre] at hmap1 hmap1s
    simp only [List.map_nil, List.nil_append, List.map_cons] at hmap1 hmap1s
    cases rects with
    | nil => simp at hmap1
    | cons rh rt =>
      simp only [List.map_cons, List.cons.injEq] at hmap1 hmap1s
      have hrhpts : rh.pts = (mkRectangle bl tr b d o).pts := hmap1.1
      have hrhsegs : rh.segs = (mkRectangle bl tr b d o).segs := hmap1s.1
      obtain ⟨r1, g1, hm, hrest⟩ := rectLoop_cons_some_inv hrl2
      obtain ⟨gP, hp, hs⟩ := rect_make_geometry_some hm
      obtain ⟨nums1, hloop, hr1⟩ := add_points_some hp
      obtain ⟨hppts, hpsegs⟩ := addPointsLoop_geom hloop
      have hfilter : rh.pts.filter
          (fun pt => (List.find? (fun r0 => r0.has_pt pt) ([] : List Rectangle)).isNone) =
          rh.pts := by
        rw [List.filter_eq_self]
        intro pt hpt
        rfl
      have hgplen : gP.points.length = gB.points.length + 4 := by
        rw [hppts, hfilter]
        rw [List.length_append, hrhpts, mkRectangle_pts_length]
      rw [Rectangle.add_segs] at hs
      obtain ⟨hssegs, hspts⟩ := addSegsLoop_segments hs
      have hr1segs : r1.segs = rh.segs := by rw [hr1]
      have hsome := addSegsLoop_some_entries hs
      have hseglen : ((List.range r1.segs.length).filterMap (fun i =>
          if suppressedB r1 [] i then none else segEntryAt r1 i)).length =
          r1.segs.length := by
        refine (filterMap_length_of_isSome ?_).trans (List.length_range _)
        intro i hi
        rcases hsome i hi with hsup | hent
        · rw [suppressedB] at hsup
          simp at hsup
        · rw [suppressedB_nil]
          simp only [Bool.false_eq_true, if_false]
          exact hent
      have hg1pts : g1.points.length = gB.points.length + 4 := by
        rw [hspts, hgplen]
      have hg1segs : g1.segments.length = gB.segments.length + 4 := by
        rw [hssegs, List.length_append, hseglen, hr1segs, hrhsegs,
          mkRectangle_segs_length, hpsegs]
      obtain ⟨⟨ap, hap⟩, ⟨es, hes⟩, -, -⟩ := rectLoop_ext hrest
      obtain ⟨⟨ap2, hap2⟩, ⟨es2, hes2⟩, -⟩ := circleLoop_ext hcl2
      constructor
      · rw [he1g, he2g, hap2, hap, List.length_append, List.length_append, hg1pts]
        omega
      · rw [he1g, he2g, hes2, hes, List.length_append, List.length_append, hg1segs]
        omega
  · -- no rectangles: the first circle re-appends its 8 points and 4 arcs.
    rw [hre] at hmap1
    simp only [List.map_nil, List.nil_append] at hmap1
    have hrectsnil : rects = [] := by
      cases rects with
      | nil => rfl
      | cons a t => simp at hmap1
    rw [hrectsnil, rectLoop_nil] at hrl2
    have hgc : gC = gB := by
      simp only [Option.some.injEq, Prod.mk.injEq] at hrl2
      exact hrl2.2.symm
    rw [hgc] at hcl2
    rw [hce] at hcmap1
    simp only [List.map_nil, List.nil_append, List.map_cons] at hcmap1
    cases circs with
    | nil => simp at hcmap1
    | cons ch ct =>
      simp only [List.map_cons, List.cons.injEq] at hcmap1
      have hchpts : ch.pts = (mkCircle cen rad b d o).pts := hcmap1.1
      obtain ⟨c1, g1, hm, hrest⟩ := circleLoop_cons_some_inv hcl2
      obtain ⟨nums1, gMid, hp, hs, hc1⟩ := circle_make_geometry_some hm
      rw [appendPointsLoop_eq] at hp
      have hmid : gMid = { gB with points := gB.points ++ ch.pts } :=
        (congrArg Prod.snd hp).symm
      obtain ⟨hspts, es1, hes1, hlen1⟩ := circleSegsLoop_ext hs
      have hg1pts : g1.points.length = gB.points.length + 8 := by
        rw [hspts, hmid]
        simp only [List.length_append]
        rw [hchpts]
        rfl
      have hg1segs : g1.segments.length = gB.segments.length + 4 := by
        rw [hes1, hmid]
        simp only [List.length_append]
        rw [hlen1]
        rfl
      obtain ⟨⟨ap2, hap2⟩, ⟨es2, hes2⟩, -⟩ := circleLoop_ext hrest
      constructor
      · rw [he1g, he2g, hap2, List.length_append, hg1pts]
        omega
      · rw [he1g, he2g, hes2, List.length_append, hg1segs]
        omega

/-- Claim C9 witness: finalizing a one-rectangle builder twice re-appends
the rectangle's 4 points and 4 edges in the second call. -/
theorem C9_witness :
    ({ rectangles := [{ pts := [((0 : ℚ), (0 : ℚ)), (1, 0), (1, 1), (0, 1)], segs := [((0, 0), (1, 0)), ((1, 0), (1, 1)), ((1, 1), (0, 1)), ((0, 1), (0, 0))], nums := [0, 1, 2, 3], bnd := 1, din := 1, dout := Dout.scalar 0 }], circles := [], geom := { points := [((0 : ℚ), (0 : ℚ)), (1, 0), (1, 1), (0, 1)], segments := [{ spec := CurveSpec.line 0 1, bc := 1, leftdomain := 1, rightdomain := 0 }, { spec := CurveSpec.line 1 2, bc := 1, leftdomain := 1, rightdomain := 0 }, { spec := CurveSpec.line 2 3, bc := 1, leftdomain := 1, rightdomain := 0 }, { spec := CurveSpec.line 3 0, bc := 1, leftdomain := 1, rightdomain := 0 }] } } : EzGeom).geom.points.length + 4 ≤ ({ rectangles := [{ pts := [((0 : ℚ), (0 : ℚ)), (1, 0), (1, 1), (0, 1)], segs := [((0, 0), (1, 0)), ((1, 0), (1, 1)), ((1, 1), (0, 1)), ((0, 1), (0, 0))], nums := [0, 1, 2, 3, 4, 5, 6, 7], bnd := 1, din := 1, dout := Dout.scalar 0 }], circles := [], geom := { points := [((0 : ℚ), (0 : ℚ)), (1, 0), (1, 1), (0, 1), (0, 0), (1, 0), (1, 1), (0, 1)], segments := [{ spec := CurveSpec.line 0 1, bc := 1, leftdomain := 1, rightdomain := 0 }, { spec := CurveSpec.line 1 2, bc := 1, leftdomain := 1, rightdomain := 0 }, { spec := CurveSpec.line 2 3, bc := 1, leftdomain := 1, rightdomain := 0 }, { spec := CurveSpec.line 3 0, bc := 1, leftdomain := 1, rightdomain := 0 }, { spec := CurveSpec.line 0 1, bc := 1, leftdomain := 1, rightdomain := 0 }, { spec := CurveSpec.line 1 2, bc := 1, leftdomain := 1, rightdomain := 0 }, { spec := CurveSpec.line 2 3, bc := 1, leftdomain := 1, rightdomain := 0 }, { spec := CurveSpec.line 3 0, bc := 1, leftdomain := 1, rightdomain := 0 }] } } : EzGeom).geom.points.length ∧ ({ rectangles := [{ pts := [((0 : ℚ), (0 : ℚ)), (1, 0), (1, 1), (0, 1)], segs := [((0, 0), (1, 0)), ((1, 0), (1, 1)), ((1, 1), (0, 1)), ((0, 1), (0, 0))], nums := [0, 1, 2, 3], bnd := 1, din := 1, dout := Dout.scalar 0 }], circles := [], geom := { points := [((0 : ℚ), (0 : ℚ)), (1, 0), (1, 1), (0, 1)], segments := [{ spec := CurveSpec.line 0 1, bc := 1, leftdomain := 1, rightdomain := 0 }, { spec := CurveSpec.line 1 2, bc := 1, leftdomain := 1, rightdomain := 0 }, { spec := CurveSpec.line 2 3, bc := 1, leftdomain := 1, rightdomain := 0 }, { spec := CurveSpec.line 3 0, bc := 1, leftdomain := 1, rightdomain := 0 }] } } : EzGeom).geom.segments.length + 4 ≤ ({ rectangles := [{ pts := [((0 : ℚ), (0 : ℚ)), (1, 0), (1, 1), (0, 1)], segs := [((0, 0), (1, 0)), ((1, 0), (1, 1)), ((1, 1), (0, 1)), ((0, 1), (0, 0))], nums := [0, 1, 2, 3, 4, 5, 6, 7], bnd := 1, din := 1, dout := Dout.scalar 0 }], circles := [], geom := { points := [((0 : ℚ), (0 : ℚ)), (1, 0), (1, 1), (0, 1), (0, 0), (1, 0), (1, 1), (0, 1)], segments := [{ spec := CurveSpec.line 0 1, bc := 1, leftdomain := 1, rightdomain := 0 }, { spec := CurveSpec.line 1 2, bc := 1, leftdomain := 1, rightdomain := 0 }, { spec := CurveSpec.line 2 3, bc := 1, leftdomain := 1, rightdomain := 0 }, { spec := CurveSpec.line 3 0, bc := 1, leftdomain := 1, rightdomain := 0 }, { spec := CurveSpec.line 0 1, bc := 1, leftdomain := 1, rightdomain := 0 }, { spec := CurveSpec.line 1 2, bc := 1, leftdomain := 1, rightdomain := 0 }, { spec := CurveSpec.line 2 3, bc := 1, leftdomain := 1, rightdomain := 0 }, { spec := CurveSpec.line 3 0, bc := 1, leftdomain := 1, rightdomain := 0 }] } } : EzGeom).geom.segments.length :=
  C9_second_finalize_appends_again
    (EzGeom.new.add_rect (0, 0) (1, 1) 1 1 (Dout.scalar 0)) _ _
    (Or.inl ⟨(0, 0), (1, 1), 1, 1, Dout.scalar 0, [], rfl⟩)
    (by decide) (by decide)

/-! Helpers for the shared-edge theorem. -/

theorem listIndex_getD_of_nodup {α : Type} [DecidableEq α] {l : List α}
    (h : l.Nodup) {k : ℕ} (hk : k < l.length) (d : α) :
    listIndex l (l.getD k d) = some k := by
  have h1 := listIndex_of_nodup h hk
  rw [List.getD_eq_getElem l d hk]
  rwa [List.getD_eq_getElem l _ hk] at h1

theorem nodup_getD_ne {α : Type} [DecidableEq α] {l : List α} (h : l.Nodup)
    {k m : ℕ} (hk : k < l.length) (hm : m < l.length) (hne : k ≠ m) (d : α) :
    l.getD k d ≠ l.getD m d := by
  intro he
  have h1 := listIndex_getD_of_nodup h hk d
  have h2 := listIndex_getD_of_nodup h hm d
  rw [he] at h1
  rw [h1] at h2
  exact hne (Option.some.inj h2)

theorem has_pt_iff (r : Rectangle) (pt : Point) :
    r.has_pt pt = true ↔ pt ∈ r.pts := by
  rw [Rectangle.has_pt]
  simp only [List.any_eq_true, decide_eq_true_eq]
  constructor
  · rintro ⟨x, hx, rfl⟩
    exact hx
  · intro hm
    exact ⟨pt, hm, rfl⟩

theorem getD_mem {α : Type} {l : List α} {k : ℕ} (hk : k < l.length) (d : α) :
    l.getD k d ∈ l := by
  rw [List.getD_eq_getElem l d hk]
  exact List.getElem_mem hk

theorem range4_lookup {k : ℕ} (hk : k < 4) : ([0, 1, 2, 3] : List ℕ)[k]? = some k := by
  interval_cases k <;> rfl

theorem bool_eq_decide {b : Bool} {P : Prop} [Decidable P] (h : b = true ↔ P) :
    b = decide P := by
  cases hb : b with
  | true => exact (decide_eq_true (h.mp hb)).symm
  | false =>
    have : ¬ P := fun hp => by
      rw [h.mpr hp] at hb
      exact Bool.noConfusion hb
    simp [this]

theorem entryEndpoints_line {g : Geom} {n1 n2 : ℕ} {bc ld rd : ℤ}
    {pa pb : Point} (h1 : g.points[n1]? = some pa) (h2 : g.points[n2]? = some pb) :
    entryEndpoints g { spec := CurveSpec.line n1 n2, bc := bc,
                       leftdomain := ld, rightdomain := rd } = some (pa, pb) := by
  rw [entryEndpoints]
  simp [h1, h2]

theorem listIndex_isSome_of_mem {α : Type} [DecidableEq α] {l : List α} {a : α}
    (h : a ∈ l) : ∃ k, listIndex l a = some k := by
  cases hidx : listIndex l a with
  | none => rw [listIndex_eq_none] at hidx; exact absurd h hidx
  | some k => exact ⟨k, rfl⟩

theorem sameUndir_of_rev {s t : Seg} (h : t = (s.2, s.1)) : sameUndir s t := by
  right
  rw [h]


/-- The shared-edge pair data is symmetric in the two rectangles. -/
theorem SharedOneEdgeRev.symm {r1 r2 : Rectangle} {i0 j0 : Fin 4}
    (h : SharedOneEdgeRev r1 r2 i0 j0) : SharedOneEdgeRev r2 r1 j0 i0 := by
  constructor
  · rw [h.1]
  · intro j i hsame
    have hsame2 : sameUndir (rectSeg r1 i) (rectSeg r2 j) := by
      rcases hsame with he | he
      · exact Or.inl he.symm
      · exact Or.inr (by rw [he])
    have := h.2 i j hsame2
    exact ⟨this.2, this.1⟩

/-- The count of edges joining two points ignores the order of the points. -/
theorem lineCount_comm (g : Geom) (a b : Point) : lineCount g a b = lineCount g b a := by
  rw [lineCount, lineCount]
  congr 1
  refine List.filter_congr ?_
  intro e he
  rw [Bool.or_comm]

theorem two_rect_shared_edge_run (x1 y1 x2 y2 x3 y3 x4 y4 : ℚ) (b1 d1 b2 d2 : ℤ)
    (o1 o2 : Dout) (i0 j0 : Fin 4)
    (hx1 : x1 ≠ x2) (hy1 : y1 ≠ y2) (hx2 : x3 ≠ x4) (hy2 : y3 ≠ y4)
    (ho1 : o1.ok) (ho2 : o2.ok)
    (hsh : SharedOneEdgeRev (mkRectangle (x1, y1) (x2, y2) b1 d1 o1)
      (mkRectangle (x3, y3) (x4, y4) b2 d2 o2) i0 j0) :
    ∃ e' : EzGeom,
      EzGeom.make_geometry
        { rectangles := [mkRectangle (x1, y1) (x2, y2) b1 d1 o1,
                         mkRectangle (x3, y3) (x4, y4) b2 d2 o2],
          circles := [], geom := Geom.empty } = some e' ∧
      countPt e'.geom (rectSeg (mkRectangle (x1, y1) (x2, y2) b1 d1 o1) i0).1 = 1 ∧
      countPt e'.geom (rectSeg (mkRectangle (x1, y1) (x2, y2) b1 d1 o1) i0).2 = 1 ∧
      lineCount e'.geom (rectSeg (mkRectangle (x1, y1) (x2, y2) b1 d1 o1) i0).1
        (rectSeg (mkRectangle (x1, y1) (x2, y2) b1 d1 o1) i0).2 = 1 ∧
      ∃ np nq : ℕ,
        (e'.rectangles.getD 0 (mkRectangle (x1, y1) (x2, y2) b1 d1 o1)).get_num
          (rectSeg (mkRectangle (x1, y1) (x2, y2) b1 d1 o1) i0).1 = some np ∧
        (e'.rectangles.getD 1 (mkRectangle (x1, y1) (x2, y2) b1 d1 o1)).get_num
          (rectSeg (mkRectangle (x1, y1) (x2, y2) b1 d1 o1) i0).1 = some np ∧
        (e'.rectangles.getD 0 (mkRectangle (x1, y1) (x2, y2) b1 d1 o1)).get_num
          (rectSeg (mkRectangle (x1, y1) (x2, y2) b1 d1 o1) i0).2 = some nq ∧
        (e'.rectangles.getD 1 (mkRectangle (x1, y1) (x2, y2) b1 d1 o1)).get_num
          (rectSeg (mkRectangle (x1, y1) (x2, y2) b1 d1 o1) i0).2 = some nq := by
  set R1 : Rectangle := mkRectangle (x1, y1) (x2, y2) b1 d1 o1 with hR1
  set R2 : Rectangle := mkRectangle (x3, y3) (x4, y4) b2 d2 o2 with hR2
  set p : Point := (rectSeg R1 i0).1 with hp
  set q : Point := (rectSeg R1 i0).2 with hq
  have hnd1 : R1.pts.Nodup := mkRectangle_pts_nodup hx1 hy1 b1 d1 o1
  have hnd2 : R2.pts.Nodup := mkRectangle_pts_nodup hx2 hy2 b2 d2 o2
  have hi0 : (i0 : ℕ) < 4 := i0.isLt
  have hj0 : (j0 : ℕ) < 4 := j0.isLt
  have hi0' : (i0 : ℕ) < R1.pts.length := by rw [hR1, mkRectangle_pts_length]; exact hi0
  have hi1' : ((i0 : ℕ) + 1) % 4 < R1.pts.length := by
    rw [hR1, mkRectangle_pts_length]; omega
  have hj0' : (j0 : ℕ) < R2.pts.length := by rw [hR2, mkRectangle_pts_length]; exact hj0
  have hj1' : ((j0 : ℕ) + 1) % 4 < R2.pts.length := by
    rw [hR2, mkRectangle_pts_length]; omega
  have hseg1 : rectSeg R1 i0 = (R1.pts.getD i0 (0, 0), R1.pts.getD (((i0 : ℕ) + 1) % 4) (0, 0)) := by
    rw [hR1]; exact rectSeg_mk _ _ _ _ _ hi0
  have hpval : p = R1.pts.getD i0 (0, 0) := by rw [hp, hseg1]
  have hqval : q = R1.pts.getD (((i0 : ℕ) + 1) % 4) (0, 0) := by rw [hq, hseg1]
  have hseg2 : rectSeg R2 j0 = (R2.pts.getD j0 (0, 0), R2.pts.getD (((j0 : ℕ) + 1) % 4) (0, 0)) := by
    rw [hR2]; exact rectSeg_mk _ _ _ _ _ hj0
  have hshrev : rectSeg R2 j0 = (q, p) := by
    rw [hsh.1, ← hp, ← hq]
  have hq2 : R2.pts.getD j0 (0, 0) = q := by
    have := congrArg Prod.fst hshrev
    rw [hseg2] at this
    exact this
  have hp2 : R2.pts.getD (((j0 : ℕ) + 1) % 4) (0, 0) = p := by
    have := congrArg Prod.snd hshrev
    rw [hseg2] at this
    exact this
  have hpmem : p ∈ R1.pts := by rw [hpval]; exact getD_mem hi0' _
  have hqmem : q ∈ R1.pts := by rw [hqval]; exact getD_mem hi1' _
  -- Phase A: the first rectangle registers against the empty description.
  set R1' : Rectangle := { R1 with nums := [0, 1, 2, 3] } with hR1'
  have hA : R1.add_points [] Geom.empty =
      some (R1', { points := R1.pts, segments := [] }) := by
    rw [hR1', hR1]
    rfl
  have hcoh : ∀ g : Geom, g.points = R1.pts → Coherent g [R1'] := by
    intro g hg rect hr pt hpt
    have hrect : rect = R1' := by simpa using hr
    subst hrect
    have hptm : pt ∈ R1.pts := (has_pt_iff R1' pt).mp hpt
    obtain ⟨k, hk⟩ := listIndex_isSome_of_mem hptm
    have hklt : k < R1.pts.length := listIndex_lt_length hk
    have hk4 : k < 4 := by
      rw [hR1, mkRectangle_pts_length] at hklt
      exact hklt
    refine ⟨k, ?_, ?_⟩
    · rw [Rectangle.get_num]
      rw [show listIndex R1'.pts pt = some k from hk]
      exact range4_lookup hk4
    · rw [hg]
      exact listIndex_getElem hk
  set E1f : ℕ → SegEntry := fun i =>
    { spec := CurveSpec.line i ((i + 1) % 4), bc := b1, leftdomain := d1,
      rightdomain := (doutAt o1 i).getD 0 } with hE1f
  have hE1 : ∀ i : ℕ, i < 4 → segEntryAt R1' i = some (E1f i) := by
    intro i hi
    obtain ⟨dv, hdv⟩ := Dout.ok_at ho1 hi
    have hilen : i < R1.pts.length := by rw [hR1, mkRectangle_pts_length]; exact hi
    have hilen2 : (i + 1) % 4 < R1.pts.length := by
      rw [hR1, mkRectangle_pts_length]; omega
    have hsg : rectSeg R1 i = (R1.pts.getD i (0, 0), R1.pts.getD ((i + 1) % 4) (0, 0)) := by
      rw [hR1]
      exact rectSeg_mk _ _ _ _ _ hi
    have h1 : listIndex R1'.pts (rectSeg R1' i).1 = some i := by
      show listIndex R1.pts (rectSeg R1 i).1 = some i
      rw [hsg]
      exact listIndex_getD_of_nodup hnd1 hilen _
    have h2 : listIndex R1'.pts (rectSeg R1' i).2 = some ((i + 1) % 4) := by
      show listIndex R1.pts (rectSeg R1 i).2 = some ((i + 1) % 4)
      rw [hsg]
      exact listIndex_getD_of_nodup hnd1 hilen2 _
    have h3 : R1'.nums[i]? = some i := range4_lookup hi
    have h4 : R1'.nums[(i + 1) % 4]? = some ((i + 1) % 4) := range4_lookup (by omega)
    have h5 : doutAt R1'.dout i = some ((doutAt o1 i).getD 0) := by
      show doutAt o1 i = some ((doutAt o1 i).getD 0)
      rw [hdv]
      rfl
    have := segEntryAt_build h1 h2 h3 h4 h5
    rw [this]
    rfl
  set gB : Geom := { points := R1.pts, segments := [E1f 0, E1f 1, E1f 2, E1f 3] } with hgB
  have hB : R1'.add_segs [] { points := R1.pts, segments := [] } = some gB := by
    rw [Rectangle.add_segs]
    have hlen : R1'.segs.length = 4 := by
      rw [hR1', hR1]
      rfl
    rw [hlen, show (List.range 4) = [0, 1, 2, 3] from rfl]
    rw [addSegsLoop_cons_entry (suppressedB_nil R1' 0) (hE1 0 (by omega))]
    rw [addSegsLoop_cons_entry (suppressedB_nil R1' 1) (hE1 1 (by omega))]
    rw [addSegsLoop_cons_entry (suppressedB_nil R1' 2) (hE1 2 (by omega))]
    rw [addSegsLoop_cons_entry (suppressedB_nil R1' 3) (hE1 3 (by omega))]
    rw [addSegsLoop_nil, hgB]
    rfl
  have hRm1 : R1.make_geometry [] Geom.empty = some (R1', gB) :=
    rect_make_geometry_eq hA hB
  -- Phase B: the second rectangle registers against [R1'].
  have hcohB : Coherent gB [R1'] := hcoh gB (by rw [hgB])
  have hps := @add_points_isSome R2 [R1'] (Coherent.ownsIds hcohB) gB
  rw [Option.isSome_iff_exists] at hps
  obtain ⟨⟨R2', gC⟩, hap2⟩ := hps
  obtain ⟨ns2, hloop2, hR2'⟩ := add_points_some hap2
  have hR2nums : R2.nums = [] := by rw [hR2]; rfl
  have hR2ptslen : R2.pts.length = 4 := by rw [hR2]; rfl
  have hns2len : ns2.length = 4 := by
    obtain ⟨suffix, hsuf, hsuflen⟩ := addPointsLoop_nums_ext hloop2
    rw [hsuf, hR2nums, List.nil_append, hsuflen, hR2ptslen]
  have hgC := addPointsLoop_geom hloop2
  have hgCpts : gC.points = R1.pts ++
      R2.pts.filter (fun pt => (List.find? (fun r0 => r0.has_pt pt) [R1']).isNone) := by
    have := hgC.1
    rwa [show gB.points = R1.pts from by rw [hgB]] at this
  have hgCsegs : gC.segments = [E1f 0, E1f 1, E1f 2, E1f 3] := by
    have := hgC.2
    rwa [show gB.segments = [E1f 0, E1f 1, E1f 2, E1f 3] from by rw [hgB]] at this
  have hb1p : R1'.has_pt p = true := (has_pt_iff R1' p).mpr hpmem
  have hb1q : R1'.has_pt q = true := (has_pt_iff R1' q).mpr hqmem
  have hfind_p : List.find? (fun r0 => r0.has_pt p) [R1'] = some R1' := by
    rw [List.find?_cons, hb1p]
  have hfind_q : List.find? (fun r0 => r0.has_pt q) [R1'] = some R1' := by
    rw [List.find?_cons, hb1q]
  have hidxq : listIndex R1'.pts q = some (((i0 : ℕ) + 1) % 4) := by
    show listIndex R1.pts q = some (((i0 : ℕ) + 1) % 4)
    rw [hqval]
    exact listIndex_getD_of_nodup hnd1 hi1' _
  have hidxp : listIndex R1'.pts p = some (i0 : ℕ) := by
    show listIndex R1.pts p = some (i0 : ℕ)
    rw [hpval]
    exact listIndex_getD_of_nodup hnd1 hi0' _
  have hget1q : R1'.get_num q = some (((i0 : ℕ) + 1) % 4) := by
    rw [Rectangle.get_num, hidxq]
    exact range4_lookup (by omega)
  have hget1p : R1'.get_num p = some (i0 : ℕ) := by
    rw [Rectangle.get_num, hidxp]
    exact range4_lookup hi0
  have hnq : ns2[(j0 : ℕ)]? = some (((i0 : ℕ) + 1) % 4) := by
    have hf : List.find? (fun r0 => r0.has_pt (R2.pts.getD (j0 : ℕ) (0, 0))) [R1'] =
        some R1' := by
      rw [hq2]
      exact hfind_q
    have := addPointsLoop_idx_matched hloop2 hj0' hf
    rw [hR2nums] at this
    simp only [List.length_nil, Nat.zero_add] at this
    rw [this, hq2]
    exact hget1q
  have hnp : ns2[((j0 : ℕ) + 1) % 4]? = some (i0 : ℕ) := by
    have hf : List.find? (fun r0 => r0.has_pt (R2.pts.getD (((j0 : ℕ) + 1) % 4) (0, 0)))
        [R1'] = some R1' := by
      rw [hp2]
      exact hfind_p
    have := addPointsLoop_idx_matched hloop2 hj1' hf
    rw [hR2nums] at this
    simp only [List.length_nil, Nat.zero_add] at this
    rw [this, hp2]
    exact hget1p
  have hresolve : ∀ k : ℕ, k < 4 → ∃ n : ℕ, ns2[k]? = some n ∧
      gC.points[n]? = some (R2.pts.getD k (0, 0)) := by
    intro k hk
    have hk' : k < R2.pts.length := by rw [hR2ptslen]; exact hk
    have := addPointsLoop_resolve hcohB hloop2 k hk'
    rw [hR2nums] at this
    simpa using this
  -- Phase B continued: the duplicate test fires exactly at index j0.
  have hR2'segs : R2'.segs = R2.segs := by rw [hR2']
  have hR2'pts : R2'.pts = R2.pts := by rw [hR2']
  have hR2'nums : R2'.nums = ns2 := by rw [hR2']
  have hR1segs4 : R1.segs.length = 4 := by rw [hR1]; rfl
  have hR2segs4 : R2.segs.length = 4 := by rw [hR2]; rfl
  have hrectSeg2' : ∀ j : ℕ, rectSeg R2' j = rectSeg R2 j := by
    intro j
    rw [rectSeg, rectSeg, hR2'segs]
  have hsupp : ∀ j : ℕ, j < 4 → (suppressedB R2' [R1'] j = true ↔ j = (j0 : ℕ)) := by
    intro j hj
    constructor
    · intro hsB
      obtain ⟨s, hs, hmem⟩ := (suppressedB_iff R2' [R1'] j).mp hsB
      have hsR1 : s = R1' := by simpa using hs
      subst hsR1
      rw [hrectSeg2'] at hmem
      have hmem1 : ((rectSeg R2 j).2, (rectSeg R2 j).1) ∈ R1.segs := hmem
      obtain ⟨k, hk, hkeq⟩ := List.mem_iff_getElem.mp hmem1
      have hk4 : k < 4 := by rw [hR1segs4] at hk; exact hk
      have hkseg : rectSeg R1 k = ((rectSeg R2 j).2, (rectSeg R2 j).1) := by
        rw [rectSeg, List.getD_eq_getElem _ _ hk]
        exact hkeq
      have hsame : sameUndir (rectSeg R1 (⟨k, hk4⟩ : Fin 4))
          (rectSeg R2 (⟨j, hj⟩ : Fin 4)) := Or.inr hkseg
      have := hsh.2 ⟨k, hk4⟩ ⟨j, hj⟩ hsame
      exact congrArg Fin.val this.2
    · intro hjj
      subst hjj
      refine (suppressedB_iff R2' [R1'] (j0 : ℕ)).mpr ⟨R1', by simp, ?_⟩
      rw [hrectSeg2', hshrev]
      show (p, q) ∈ R1'.segs
      have : (p, q) = rectSeg R1 i0 := by
        rw [hp, hq]
      rw [this]
      show rectSeg R1 (i0 : ℕ) ∈ R1.segs
      rw [rectSeg]
      exact getD_mem (by rw [hR1segs4]; exact hi0) _
  have hE2some : ∀ j : ℕ, j < 4 → (segEntryAt R2' j).isSome := by
    intro j hj
    refine segEntryAt_isSome ?_ ?_ ?_ ?_
    · rw [hR2'pts, hR2'nums, hR2ptslen, hns2len]
    · rw [show (R2'.segs.getD j ((0, 0), (0, 0))) = rectSeg R2 j from by
        rw [← hrectSeg2' j]; rfl]
      rw [hR2'pts, hR2]
      exact rectSeg_fst_mem _ _ _ _ _ hj
    · rw [show (R2'.segs.getD j ((0, 0), (0, 0))) = rectSeg R2 j from by
        rw [← hrectSeg2' j]; rfl]
      rw [hR2'pts, hR2]
      exact rectSeg_snd_mem _ _ _ _ _ hj
    · obtain ⟨dv, hdv⟩ := Dout.ok_at ho2 hj
      rw [show R2'.dout = o2 from by rw [hR2']; rfl, hdv]
      rfl
  have hR2'segs4 : R2'.segs.length = 4 := by rw [hR2'segs, hR2segs4]
  have hrun2 : ∃ gD : Geom, R2'.add_segs [R1'] gC = some gD := by
    have hsome : (addSegsLoop R2' [R1'] (List.range R2'.segs.length) gC).isSome := by
      refine addSegsLoop_isSome ?_ gC
      intro i hi
      rw [hR2'segs4] at hi
      exact Or.inr (hE2some i (List.mem_range.mp hi))
    rw [Rectangle.add_segs]
    rw [Option.isSome_iff_exists] at hsome
    obtain ⟨gD, hgD⟩ := hsome
    exact ⟨gD, hgD⟩
  obtain ⟨gD, hsegs2⟩ := hrun2
  have hgDfacts := addSegsLoop_segments (by rw [Rectangle.add_segs] at hsegs2; exact hsegs2)
  have hgDsegs : gD.segments = gC.segments ++
      (List.range 4).filterMap (fun i =>
        if suppressedB R2' [R1'] i then none else segEntryAt R2' i) := by
    have := hgDfacts.1
    rwa [hR2'segs4] at this
  have hgDpts : gD.points = gC.points := hgDfacts.2
  -- Assemble the whole builder run.
  have hRm2 : R2.make_geometry [R1'] gB = some (R2', gD) :=
    rect_make_geometry_eq hap2 hsegs2
  have hrl : rectLoop [R1, R2] [] Geom.empty = some ([R1', R2'], gD) := by
    rw [rectLoop_cons_some hRm1]
    simp only [List.nil_append]
    rw [rectLoop_cons_some hRm2]
    rw [rectLoop_nil]
    rfl
  have hmk : EzGeom.make_geometry
      { rectangles := [R1, R2], circles := [], geom := Geom.empty } =
      some { rectangles := [R1', R2'], circles := [], geom := gD } := by
    have := @make_geometry_eq
      { rectangles := [R1, R2], circles := [], geom := Geom.empty }
      [R1', R2'] [] gD gD hrl circleLoop_nil
    exact this
  -- Point counts: each shared endpoint occurs exactly once.
  have hcountPt : ∀ x : Point, x ∈ R1.pts → countPt gD x = 1 := by
    intro x hx
    rw [countPt, hgDpts, hgCpts, List.filter_append, List.length_append]
    have h1 : (R1.pts.filter (fun z => decide (z = x))).length = 1 :=
      countP_eq_one_of_nodup hnd1 hx
    have hcx : (List.find? (fun r0 => r0.has_pt x) [R1']).isNone = false := by
      rw [List.find?_cons, (has_pt_iff R1' x).mpr hx]
      rfl
    have h2 : ((R2.pts.filter
        (fun pt => (List.find? (fun r0 => r0.has_pt pt) [R1']).isNone)).filter
        (fun z => decide (z = x))).length = 0 := countP_filter_eq_zero hcx
    rw [h1, h2]
  -- Endpoint resolution of the first rectangle's entries in the final description.
  have hlookup1 : ∀ k : ℕ, k < 4 → gD.points[k]? = some (R1.pts.getD k (0, 0)) := by
    intro k hk
    have hk' : k < R1.pts.length := by rw [hR1, mkRectangle_pts_length]; exact hk
    rw [hgDpts, hgCpts, List.getElem?_append_left hk', List.getD_eq_getElem _ _ hk',
      List.getElem?_eq_getElem hk']
  have hend1 : ∀ i : ℕ, i < 4 → entryEndpoints gD (E1f i) = some (rectSeg R1 i) := by
    intro i hi
    have hsg : rectSeg R1 i = (R1.pts.getD i (0, 0), R1.pts.getD ((i + 1) % 4) (0, 0)) := by
      rw [hR1]
      exact rectSeg_mk _ _ _ _ _ hi
    simp only [hE1f]
    rw [hsg]
    exact entryEndpoints_line (hlookup1 i hi) (hlookup1 ((i + 1) % 4) (by omega))
  have hpq_eta : (p, q) = rectSeg R1 (i0 : ℕ) := by
    rw [hp, hq]
  have hpred1 : ∀ i : ℕ, i < 4 →
      (decide (entryEndpoints gD (E1f i) = some (p, q)) ||
       decide (entryEndpoints gD (E1f i) = some (q, p))) = decide (i = (i0 : ℕ)) := by
    intro i hi
    refine bool_eq_decide ?_
    rw [Bool.or_eq_true, decide_eq_true_eq, decide_eq_true_eq, hend1 i hi,
      Option.some.injEq, Option.some.injEq]
    constructor
    · rintro (hcase | hcase)
      · have hsame : sameUndir (rectSeg R1 (⟨i, hi⟩ : Fin 4)) (rectSeg R2 j0) := by
          refine Or.inr ?_
          rw [hshrev]
          show rectSeg R1 i = ((q, p).2, (q, p).1)
          rw [hcase, hpq_eta]
        have := hsh.2 ⟨i, hi⟩ j0 hsame
        exact congrArg Fin.val this.1
      · have hsame : sameUndir (rectSeg R1 (⟨i, hi⟩ : Fin 4)) (rectSeg R2 j0) := by
          refine Or.inl ?_
          rw [hshrev]
          exact hcase
        have := hsh.2 ⟨i, hi⟩ j0 hsame
        exact congrArg Fin.val this.1
    · intro hii
      left
      rw [hii, ← hpq_eta]
  -- The second rectangle's surviving entries never join p and q.
  have hpred2 : ∀ e ∈ (List.range 4).filterMap (fun i =>
      if suppressedB R2' [R1'] i then none else segEntryAt R2' i),
      ¬ ((decide (entryEndpoints gD e = some (p, q)) ||
          decide (entryEndpoints gD e = some (q, p))) = true) := by
    intro e he
    obtain ⟨j, hjmem, hfe⟩ := List.mem_filterMap.mp he
    have hj : j < 4 := List.mem_range.mp hjmem
    cases hsb : suppressedB R2' [R1'] j with
    | true => rw [hsb] at hfe; simp at hfe
    | false =>
      rw [hsb] at hfe
      simp only [Bool.false_eq_true, if_false] at hfe
      have hjne : j ≠ (j0 : ℕ) := by
        intro hjj
        rw [(hsupp j hj).mpr hjj] at hsb
        exact Bool.noConfusion hsb
      obtain ⟨i1, i2, n1, n2, dv, he1, he2, he3, he4, he5, he6⟩ := segEntryAt_some hfe
      rw [hR2'pts, hR2'segs] at he1 he2
      rw [show R2.segs.getD j ((0, 0), (0, 0)) = rectSeg R2 j from rfl] at he1 he2
      rw [hR2'nums] at he3 he4
      have hsg : rectSeg R2 j = (R2.pts.getD j (0, 0), R2.pts.getD ((j + 1) % 4) (0, 0)) := by
        rw [hR2]
        exact rectSeg_mk _ _ _ _ _ hj
      have hjlen : j < R2.pts.length := by rw [hR2ptslen]; exact hj
      have hjlen2 : (j + 1) % 4 < R2.pts.length := by rw [hR2ptslen]; omega
      have hi1 : i1 = j := by
        rw [hsg] at he1
        have h2' := listIndex_getD_of_nodup hnd2 hjlen ((0 : ℚ), (0 : ℚ))
        rw [he1] at h2'
        exact Option.some.inj h2'
      have hi2 : i2 = (j + 1) % 4 := by
        rw [hsg] at he2
        have h2' := listIndex_getD_of_nodup hnd2 hjlen2 ((0 : ℚ), (0 : ℚ))
        rw [he2] at h2'
        exact Option.some.inj h2'
      rw [hi1] at he3
      rw [hi2] at he4
      obtain ⟨m1, hm1, hm1pt⟩ := hresolve j hj
      obtain ⟨m2, hm2, hm2pt⟩ := hresolve ((j + 1) % 4) (by omega)
      have hn1 : n1 = m1 := by
        rw [he3] at hm1
        exact Option.some.inj hm1
      have hn2 : n2 = m2 := by
        rw [he4] at hm2
        exact Option.some.inj hm2
      rw [← hn1] at hm1pt
      rw [← hn2] at hm2pt
      have hendd : entryEndpoints gD e = some (rectSeg R2 j) := by
        rw [he6, hsg]
        refine entryEndpoints_line ?_ ?_
        · rw [hgDpts]
          exact hm1pt
        · rw [hgDpts]
          exact hm2pt
      rw [hendd]
      simp only [Bool.or_eq_true, decide_eq_true_eq, Option.some.injEq]
      rintro (hcase | hcase)
      · have hsame : sameUndir (rectSeg R1 (i0 : Fin 4)) (rectSeg R2 (⟨j, hj⟩ : Fin 4)) := by
          refine Or.inl ?_
          show rectSeg R1 (i0 : ℕ) = rectSeg R2 j
          rw [hcase, ← hpq_eta]
        have := hsh.2 i0 ⟨j, hj⟩ hsame
        exact hjne (congrArg Fin.val this.2)
      · have hsame : sameUndir (rectSeg R1 (i0 : Fin 4)) (rectSeg R2 (⟨j, hj⟩ : Fin 4)) := by
          refine Or.inr ?_
          show rectSeg R1 (i0 : ℕ) = ((rectSeg R2 j).2, (rectSeg R2 j).1)
          rw [hcase, ← hpq_eta]
        have := hsh.2 i0 ⟨j, hj⟩ hsame
        exact hjne (congrArg Fin.val this.2)
  have hline : lineCount gD p q = 1 := by
    rw [lineCount, hgDsegs, hgCsegs, List.filter_append, List.length_append]
    have h2 : ((List.range 4).filterMap (fun i =>
        if suppressedB R2' [R1'] i then none else segEntryAt R2' i)).filter
        (fun e => decide (entryEndpoints gD e = some (p, q)) ||
          decide (entryEndpoints gD e = some (q, p))) = [] := by
      rw [List.filter_eq_nil_iff]
      exact hpred2
    rw [h2]
    simp only [List.length_nil]
    have hp0 := hpred1 0 (by omega)
    have hp1' := hpred1 1 (by omega)
    have hp2' := hpred1 2 (by omega)
    have hp3' := hpred1 3 (by omega)
    rw [List.filter_cons, List.filter_cons, List.filter_cons, List.filter_cons]
    rw [hp0, hp1', hp2', hp3']
    have hi0v : (i0 : ℕ) < 4 := hi0
    set iv : ℕ := (i0 : ℕ) with hiv
    interval_cases iv <;> simp
  -- Identifier reuse for the shared endpoints.
  have hidx2p : listIndex R2'.pts p = some (((j0 : ℕ) + 1) % 4) := by
    rw [hR2'pts, ← hp2]
    exact listIndex_getD_of_nodup hnd2 hj1' _
  have hidx2q : listIndex R2'.pts q = some (j0 : ℕ) := by
    rw [hR2'pts, ← hq2]
    exact listIndex_getD_of_nodup hnd2 hj0' _
  have hget2p : R2'.get_num p = some (i0 : ℕ) := by
    rw [Rectangle.get_num, hidx2p, hR2'nums]
    exact hnp
  have hget2q : R2'.get_num q = some (((i0 : ℕ) + 1) % 4) := by
    rw [Rectangle.get_num, hidx2q, hR2'nums]
    exact hnq
  -- Conclusion.
  refine ⟨{ rectangles := [R1', R2'], circles := [], geom := gD }, hmk, ?_, ?_, ?_, ?_⟩
  · exact hcountPt p hpmem
  · exact hcountPt q hqmem
  · exact hline
  · refine ⟨(i0 : ℕ), ((i0 : ℕ) + 1) % 4, ?_, ?_, ?_, ?_⟩
    · show R1'.get_num p = _
      exact hget1p
    · show R2'.get_num p = _
      exact hget2p
    · show R1'.get_num q = _
      exact hget1q
    · show R2'.get_num q = _
      exact hget2q


/-- C1 counterexample: the rectangles with corners (0,0),(1,1) and
(0,0),(1,2) share exactly one undirected edge, namely the bottom edge from
(0,0) to (1,0), but both rectangles traverse it in the same direction.  The
reverse-only duplicate check of has_seg does not fire, so finalizing
registers the shared edge twice, refuting the claim as stated. -/
theorem C1_counterexample :
    (∃ i0 j0 : Fin 4,
      sameUndir (rectSeg (mkRectangle (0, 0) (1, 1) 1 1 (Dout.scalar 0)) i0)
        (rectSeg (mkRectangle (0, 0) (1, 2) 1 2 (Dout.scalar 0)) j0) ∧
      ∀ i j : Fin 4,
        sameUndir (rectSeg (mkRectangle (0, 0) (1, 1) 1 1 (Dout.scalar 0)) i)
          (rectSeg (mkRectangle (0, 0) (1, 2) 1 2 (Dout.scalar 0)) j) → i = i0 ∧ j = j0) ∧
    (((EzGeom.new.add_rect (0, 0) (1, 1) 1 1 (Dout.scalar 0)).add_rect
        (0, 0) (1, 2) 1 2 (Dout.scalar 0)).make_geometry).map
      (fun e => lineCount e.geom (0, 0) (1, 0)) = some 2 := by
  unfold sameUndir
  decide

/-- C1 (amended: the shared edge is traversed in opposite directions by the
two rectangles, which is what SharedOneEdgeRev states).  For two
nondegenerate axis-aligned rectangles with well-formed outer-domain
arguments that share exactly one undirected edge, with the second rectangle
traversing it as the exact reverse of the first, finalizing the geometry
registers each endpoint of the shared edge exactly once, registers the
shared edge itself exactly once, and both rectangles resolve the two
endpoints to the same identifiers, in either insertion order. -/
theorem C1_shared_edge_registered_once
    (x1 y1 x2 y2 x3 y3 x4 y4 : ℚ) (b1 d1 b2 d2 : ℤ)
    (o1 o2 : Dout) (i0 j0 : Fin 4)
    (hx1 : x1 ≠ x2) (hy1 : y1 ≠ y2) (hx2 : x3 ≠ x4) (hy2 : y3 ≠ y4)
    (ho1 : o1.ok) (ho2 : o2.ok)
    (hsh : SharedOneEdgeRev (mkRectangle (x1, y1) (x2, y2) b1 d1 o1)
      (mkRectangle (x3, y3) (x4, y4) b2 d2 o2) i0 j0) :
    (∃ e1 : EzGeom,
      ((EzGeom.new.add_rect (x1, y1) (x2, y2) b1 d1 o1).add_rect
        (x3, y3) (x4, y4) b2 d2 o2).make_geometry = some e1 ∧
      countPt e1.geom (rectSeg (mkRectangle (x1, y1) (x2, y2) b1 d1 o1) i0).1 = 1 ∧
      countPt e1.geom (rectSeg (mkRectangle (x1, y1) (x2, y2) b1 d1 o1) i0).2 = 1 ∧
      lineCount e1.geom (rectSeg (mkRectangle (x1, y1) (x2, y2) b1 d1 o1) i0).1
        (rectSeg (mkRectangle (x1, y1) (x2, y2) b1 d1 o1) i0).2 = 1 ∧
      ∃ np nq : ℕ,
        (e1.rectangles.getD 0 (mkRectangle (x1, y1) (x2, y2) b1 d1 o1)).get_num
          (rectSeg (mkRectangle (x1, y1) (x2, y2) b1 d1 o1) i0).1 = some np ∧
        (e1.rectangles.getD 1 (mkRectangle (x1, y1) (x2, y2) b1 d1 o1)).get_num
          (rectSeg (mkRectangle (x1, y1) (x2, y2) b1 d1 o1) i0).1 = some np ∧
        (e1.rectangles.getD 0 (mkRectangle (x1, y1) (x2, y2) b1 d1 o1)).get_num
          (rectSeg (mkRectangle (x1, y1) (x2, y2) b1 d1 o1) i0).2 = some nq ∧
        (e1.rectangles.getD 1 (mkRectangle (x1, y1) (x2, y2) b1 d1 o1)).get_num
          (rectSeg (mkRectangle (x1, y1) (x2, y2) b1 d1 o1) i0).2 = some nq) ∧
    (∃ e2 : EzGeom,
      ((EzGeom.new.add_rect (x3, y3) (x4, y4) b2 d2 o2).add_rect
        (x1, y1) (x2, y2) b1 d1 o1).make_geometry = some e2 ∧
      countPt e2.geom (rectSeg (mkRectangle (x1, y1) (x2, y2) b1 d1 o1) i0).1 = 1 ∧
      countPt e2.geom (rectSeg (mkRectangle (x1, y1) (x2, y2) b1 d1 o1) i0).2 = 1 ∧
      lineCount e2.geom (rectSeg (mkRectangle (x1, y1) (x2, y2) b1 d1 o1) i0).1
        (rectSeg (mkRectangle (x1, y1) (x2, y2) b1 d1 o1) i0).2 = 1 ∧
      ∃ mp mq : ℕ,
        (e2.rectangles.getD 0 (mkRectangle (x3, y3) (x4, y4) b2 d2 o2)).get_num
          (rectSeg (mkRectangle (x1, y1) (x2, y2) b1 d1 o1) i0).1 = some mp ∧
        (e2.rectangles.getD 1 (mkRectangle (x3, y3) (x4, y4) b2 d2 o2)).get_num
          (rectSeg (mkRectangle (x1, y1) (x2, y2) b1 d1 o1) i0).1 = some mp ∧
        (e2.rectangles.getD 0 (mkRectangle (x3, y3) (x4, y4) b2 d2 o2)).get_num
          (rectSeg (mkRectangle (x1, y1) (x2, y2) b1 d1 o1) i0).2 = some mq ∧
        (e2.rectangles.getD 1 (mkRectangle (x3, y3) (x4, y4) b2 d2 o2)).get_num
          (rectSeg (mkRectangle (x1, y1) (x2, y2) b1 d1 o1) i0).2 = some mq) := by
  have hsh2 := SharedOneEdgeRev.symm hsh
  have h1 := two_rect_shared_edge_run x1 y1 x2 y2 x3 y3 x4 y4 b1 d1 b2 d2 o1 o2 i0 j0
    hx1 hy1 hx2 hy2 ho1 ho2 hsh
  have h2 := two_rect_shared_edge_run x3 y3 x4 y4 x1 y1 x2 y2 b2 d2 b1 d1 o2 o1 j0 i0
    hx2 hy2 hx1 hy1 ho2 ho1 hsh2
  have hq2 : (rectSeg (mkRectangle (x3, y3) (x4, y4) b2 d2 o2) j0).1
      = (rectSeg (mkRectangle (x1, y1) (x2, y2) b1 d1 o1) i0).2 := by rw [hsh.1]
  have hp2 : (rectSeg (mkRectangle (x3, y3) (x4, y4) b2 d2 o2) j0).2
      = (rectSeg (mkRectangle (x1, y1) (x2, y2) b1 d1 o1) i0).1 := by rw [hsh.1]
  constructor
  · exact h1
  · obtain ⟨e2, hmk, hcq, hcp, hl, np, nq, ha, hb, hc, hd⟩ := h2
    rw [hq2] at hcq ha hb
    rw [hp2] at hcp hc hd
    rw [hq2, hp2] at hl
    refine ⟨e2, hmk, hcp, hcq, ?_, nq, np, hc, hd, ha, hb⟩
    rw [lineCount_comm]
    exact hl

/-- C1 witness: the unit square with corners (0,0),(1,1) and the square
with corners (0,1),(1,2) directly above it share exactly the edge between
(1,1) and (0,1), traversed in opposite directions (edge 2 of the first,
edge 0 of the second), so the amended theorem applies. -/
theorem C1_witness :
    (∃ e1 : EzGeom,
      ((EzGeom.new.add_rect (0, 0) (1, 1) 1 1 (Dout.scalar 0)).add_rect
        (0, 1) (1, 2) 2 2 (Dout.scalar 0)).make_geometry = some e1 ∧
      countPt e1.geom (rectSeg (mkRectangle (0, 0) (1, 1) 1 1 (Dout.scalar 0)) ((2 : Fin 4) : ℕ)).1 = 1 ∧
      countPt e1.geom (rectSeg (mkRectangle (0, 0) (1, 1) 1 1 (Dout.scalar 0)) ((2 : Fin 4) : ℕ)).2 = 1 ∧
      lineCount e1.geom (rectSeg (mkRectangle (0, 0) (1, 1) 1 1 (Dout.scalar 0)) ((2 : Fin 4) : ℕ)).1
        (rectSeg (mkRectangle (0, 0) (1, 1) 1 1 (Dout.scalar 0)) ((2 : Fin 4) : ℕ)).2 = 1 ∧
      ∃ np nq : ℕ,
        (e1.rectangles.getD 0 (mkRectangle (0, 0) (1, 1) 1 1 (Dout.scalar 0))).get_num
          (rectSeg (mkRectangle (0, 0) (1, 1) 1 1 (Dout.scalar 0)) ((2 : Fin 4) : ℕ)).1 = some np ∧
        (e1.rectangles.getD 1 (mkRectangle (0, 0) (1, 1) 1 1 (Dout.scalar 0))).get_num
          (rectSeg (mkRectangle (0, 0) (1, 1) 1 1 (Dout.scalar 0)) ((2 : Fin 4) : ℕ)).1 = some np ∧
        (e1.rectangles.getD 0 (mkRectangle (0, 0) (1, 1) 1 1 (Dout.scalar 0))).get_num
          (rectSeg (mkRectangle (0, 0) (1, 1) 1 1 (Dout.scalar 0)) ((2 : Fin 4) : ℕ)).2 = some nq ∧
        (e1.rectangles.getD 1 (mkRectangle (0, 0) (1, 1) 1 1 (Dout.scalar 0))).get_num
          (rectSeg (mkRectangle (0, 0) (1, 1) 1 1 (Dout.scalar 0)) ((2 : Fin 4) : ℕ)).2 = some nq) ∧
    (∃ e2 : EzGeom,
      ((EzGeom.new.add_rect (0, 1) (1, 2) 2 2 (Dout.scalar 0)).add_rect
        (0, 0) (1, 1) 1 1 (Dout.scalar 0)).make_geometry = some e2 ∧
      countPt e2.geom (rectSeg (mkRectangle (0, 0) (1, 1) 1 1 (Dout.scalar 0)) ((2 : Fin 4) : ℕ)).1 = 1 ∧
      countPt e2.geom (rectSeg (mkRectangle (0, 0) (1, 1) 1 1 (Dout.scalar 0)) ((2 : Fin 4) : ℕ)).2 = 1 ∧
      lineCount e2.geom (rectSeg (mkRectangle (0, 0) (1, 1) 1 1 (Dout.scalar 0)) ((2 : Fin 4) : ℕ)).1
        (rectSeg (mkRectangle (0, 0) (1, 1) 1 1 (Dout.scalar 0)) ((2 : Fin 4) : ℕ)).2 = 1 ∧
      ∃ mp mq : ℕ,
        (e2.rectangles.getD 0 (mkRectangle (0, 1) (1, 2) 2 2 (Dout.scalar 0))).get_num
          (rectSeg (mkRectangle (0, 0) (1, 1) 1 1 (Dout.scalar 0)) ((2 : Fin 4) : ℕ)).1 = some mp ∧
        (e2.rectangles.getD 1 (mkRectangle (0, 1) (1, 2) 2 2 (Dout.scalar 0))).get_num
          (rectSeg (mkRectangle (0, 0) (1, 1) 1 1 (Dout.scalar 0)) ((2 : Fin 4) : ℕ)).1 = some mp ∧
        (e2.rectangles.getD 0 (mkRectangle (0, 1) (1, 2) 2 2 (Dout.scalar 0))).get_num
          (rectSeg (mkRectangle (0, 0) (1, 1) 1 1 (Dout.scalar 0)) ((2 : Fin 4) : ℕ)).2 = some mq ∧
        (e2.rectangles.getD 1 (mkRectangle (0, 1) (1, 2) 2 2 (Dout.scalar 0))).get_num
          (rectSeg (mkRectangle (0, 0) (1, 1) 1 1 (Dout.scalar 0)) ((2 : Fin 4) : ℕ)).2 = some mq) :=
  C1_shared_edge_registered_once 0 0 1 1 0 1 1 2 1 1 2 2 (Dout.scalar 0) (Dout.scalar 0) 2 0
    (by decide) (by decide) (by decide) (by decide) trivial trivial
    (by unfold SharedOneEdgeRev sameUndir; decide)

end Ezgeom
